import Mathlib

/-!
Shallow embedding of the SERP-analysis keyword sync service
(repository BADupe_dev) and verification of its specification claims.

The repository's core logic lives in:
  * `src/serp_analysis/logic.py`  — `check_for_competitor_ads`,
    `is_domain_ranked_number_one` (scan-all variant);
  * `src/serp_analysis/main.py`   — the Flask sync loop, including
    `extract_competitor_domains`, the per-keyword decision block and the
    BigQuery update call;
  * `src/serp_analysis.py`        — an earlier script variant of the same
    loop with its own `check_for_competitor_ads`,
    `is_domain_ranked_number_one` (early-return variant) and an
    explicit "only write when the status changed" update guard;
  * `src/main.py`                 — the Google-Ads push component, which
    skips rows whose status is not ENABLED/PAUSED.

SERP payloads are arbitrary JSON values (the parsed DataForSEO response),
so the embedding works over a JSON value type `JVal` and models the Python
dictionary/list/string operations the code performs, including the
exceptions Python would raise (`Except.error`): subscripting, `in`
containment, `.get` with default, iteration, truthiness, `==` against a
string or integer, and `<` between ranks and `float('inf')`.
Numbers are modelled as integers (`rank_absolute` is integral in the API);
float payload values do not occur in the analysed fields.
-/

namespace BADupe

/-- JSON value, the shape of a parsed DataForSEO SERP payload.  `null`
also stands for Python `None`, which `get_serp_data` returns on a fetch
failure. -/
inductive JVal where
  | null
  | jbool (b : Bool)
  | jnum (n : Int)
  | jstr (s : String)
  | jarr (xs : List JVal)
  | jobj (fs : List (String × JVal))

mutual

/-- Structural boolean equality on JSON values (Python `==` restricted to
JSON values of like shape). -/
def JVal.beq : JVal → JVal → Bool
  | .null, .null => true
  | .jbool a, .jbool b => a == b
  | .jnum a, .jnum b => a == b
  | .jstr a, .jstr b => a == b
  | .jarr as, .jarr bs => JVal.beqList as bs
  | .jobj as, .jobj bs => JVal.beqObj as bs
  | _, _ => false

/-- Elementwise equality of JSON arrays. -/
def JVal.beqList : List JVal → List JVal → Bool
  | [], [] => true
  | a :: as, b :: bs => JVal.beq a b && JVal.beqList as bs
  | _, _ => false

/-- Fieldwise equality of JSON objects. -/
def JVal.beqObj : List (String × JVal) → List (String × JVal) → Bool
  | [], [] => true
  | (k, a) :: as, (k', b) :: bs => k == k' && JVal.beq a b && JVal.beqObj as bs
  | _, _ => false

end

mutual

/-- Proof term (used by the decidability instance below): `JVal.beq`
decides propositional equality. -/
def JVal.beq_iff : ∀ a b : JVal, JVal.beq a b = true ↔ a = b
  | .null, .null => by simp [JVal.beq]
  | .jbool _, .jbool _ => by simp [JVal.beq]
  | .jnum _, .jnum _ => by simp [JVal.beq]
  | .jstr _, .jstr _ => by simp [JVal.beq]
  | .jarr as, .jarr bs => by simp [JVal.beq, JVal.beqList_iff as bs]
  | .jobj as, .jobj bs => by simp [JVal.beq, JVal.beqObj_iff as bs]
  | .null, .jbool _ => by simp [JVal.beq]
  | .null, .jnum _ => by simp [JVal.beq]
  | .null, .jstr _ => by simp [JVal.beq]
  | .null, .jarr _ => by simp [JVal.beq]
  | .null, .jobj _ => by simp [JVal.beq]
  | .jbool _, .null => by simp [JVal.beq]
  | .jbool _, .jnum _ => by simp [JVal.beq]
  | .jbool _, .jstr _ => by simp [JVal.beq]
  | .jbool _, .jarr _ => by simp [JVal.beq]
  | .jbool _, .jobj _ => by simp [JVal.beq]
  | .jnum _, .null => by simp [JVal.beq]
  | .jnum _, .jbool _ => by simp [JVal.beq]
  | .jnum _, .jstr _ => by simp [JVal.beq]
  | .jnum _, .jarr _ => by simp [JVal.beq]
  | .jnum _, .jobj _ => by simp [JVal.beq]
  | .jstr _, .null => by simp [JVal.beq]
  | .jstr _, .jbool _ => by simp [JVal.beq]
  | .jstr _, .jnum _ => by simp [JVal.beq]
  | .jstr _, .jarr _ => by simp [JVal.beq]
  | .jstr _, .jobj _ => by simp [JVal.beq]
  | .jarr _, .null => by simp [JVal.beq]
  | .jarr _, .jbool _ => by simp [JVal.beq]
  | .jarr _, .jnum _ => by simp [JVal.beq]
  | .jarr _, .jstr _ => by simp [JVal.beq]
  | .jarr _, .jobj _ => by simp [JVal.beq]
  | .jobj _, .null => by simp [JVal.beq]
  | .jobj _, .jbool _ => by simp [JVal.beq]
  | .jobj _, .jnum _ => by simp [JVal.beq]
  | .jobj _, .jstr _ => by simp [JVal.beq]
  | .jobj _, .jarr _ => by simp [JVal.beq]

/-- Proof term: `JVal.beqList` decides equality of JSON arrays. -/
def JVal.beqList_iff : ∀ as bs : List JVal, JVal.beqList as bs = true ↔ as = bs
  | [], [] => by simp [JVal.beqList]
  | a :: as, b :: bs => by
      simp [JVal.beqList, JVal.beq_iff a b, JVal.beqList_iff as bs]
  | [], _ :: _ => by simp [JVal.beqList]
  | _ :: _, [] => by simp [JVal.beqList]

/-- Proof term: `JVal.beqObj` decides equality of JSON object field
lists. -/
def JVal.beqObj_iff : ∀ as bs : List (String × JVal), JVal.beqObj as bs = true ↔ as = bs
  | [], [] => by simp [JVal.beqObj]
  | (k, a) :: as, (k', b) :: bs => by
      simp [JVal.beqObj, JVal.beq_iff a b, JVal.beqObj_iff as bs, and_assoc]
  | [], _ :: _ => by simp [JVal.beqObj]
  | _ :: _, [] => by simp [JVal.beqObj]

end

instance : DecidableEq JVal := fun a b => decidable_of_iff _ (JVal.beq_iff a b)

instance : BEq JVal := ⟨JVal.beq⟩

instance : LawfulBEq JVal where
  eq_of_beq h := (JVal.beq_iff _ _).mp h
  rfl := (JVal.beq_iff _ _).mpr rfl

instance {ε α : Type} [DecidableEq ε] [DecidableEq α] : DecidableEq (Except ε α) :=
  fun a b =>
    match a, b with
    | .ok x, .ok y =>
        if h : x = y then .isTrue (by rw [h]) else .isFalse (fun hh => h (Except.ok.inj hh))
    | .error x, .error y =>
        if h : x = y then .isTrue (by rw [h]) else .isFalse (fun hh => h (Except.error.inj hh))
    | .ok _, .error _ => .isFalse (fun hh => Except.noConfusion hh)
    | .error _, .ok _ => .isFalse (fun hh => Except.noConfusion hh)

/-- Python truthiness of a JSON value (`if not serp_data: ...`). -/
def truthy : JVal → Bool
  | .null => false
  | .jbool b => b
  | .jnum n => n != 0
  | .jstr s => s != ""
  | .jarr xs => !xs.isEmpty
  | .jobj fs => !fs.isEmpty

/-- Python `v == s` where `s` is a `str`: true exactly for an equal
string value (no other JSON value compares equal to a string). -/
def eqStr (v : JVal) (s : String) : Bool :=
  match v with
  | .jstr t => t == s
  | _ => false

/-- Python `v == k` where `k` is an `int`.  A Python `bool` is numeric,
so `True == 1` holds. -/
def eqNum (v : JVal) (k : Int) : Bool :=
  match v with
  | .jnum n => n == k
  | .jbool b => (if b then (1 : Int) else 0) == k
  | _ => false

/-- First binding of key `k` in a JSON object's field list. -/
def jlookup (fs : List (String × JVal)) (k : String) : Option JVal :=
  match fs with
  | [] => none
  | (k', v) :: rest => if k' == k then some v else jlookup rest k

/-- Leading-match test on character lists (helper for substring search). -/
def charsLead : List Char → List Char → Bool
  | [], _ => true
  | _ :: _, [] => false
  | a :: as, b :: bs => a == b && charsLead as bs

/-- Substring test on character lists (Python `needle in haystack` for
strings). -/
def charsSub (needle hay : List Char) : Bool :=
  match hay with
  | [] => needle.isEmpty
  | _ :: t => charsLead needle hay || charsSub needle t

/-- Python `k in v` for a string key `k`: key lookup on a dict, substring
test on a string, member test on a list; `TypeError` otherwise. -/
def pyContains (k : String) (v : JVal) : Except String Bool :=
  match v with
  | .jobj fs => .ok (fs.any (fun p => p.1 == k))
  | .jstr s => .ok (charsSub k.toList s.toList)
  | .jarr xs => .ok (xs.any (fun x => eqStr x k))
  | _ => .error "TypeError: argument of type is not iterable"

/-- Python `v[k]` for a string key `k`: dict lookup (`KeyError` when the
key is absent); `TypeError` on any non-dict value. -/
def pySubscr (v : JVal) (k : String) : Except String JVal :=
  match v with
  | .jobj fs =>
      match jlookup fs k with
      | some w => .ok w
      | none => .error "KeyError"
  | _ => .error "TypeError: value is not subscriptable by str"

/-- Python `v[i]` for a non-negative integer index: list indexing
(`IndexError` out of range), string indexing (a one-character string),
`KeyError` on a dict with string keys, `TypeError` otherwise. -/
def pyIndex (v : JVal) (i : Nat) : Except String JVal :=
  match v with
  | .jarr xs =>
      match xs[i]? with
      | some w => .ok w
      | none => .error "IndexError"
  | .jstr s =>
      match s.toList[i]? with
      | some c => .ok (.jstr (String.singleton c))
      | none => .error "IndexError"
  | .jobj _ => .error "KeyError"
  | _ => .error "TypeError: value is not subscriptable by int"

/-- Python `v.get(k, dflt)`: only dicts have `.get`; any other value
raises `AttributeError`.  A key bound to `null` yields `null`, not the
default. -/
def pyGet (v : JVal) (k : String) (dflt : JVal) : Except String JVal :=
  match v with
  | .jobj fs =>
      match jlookup fs k with
      | some w => .ok w
      | none => .ok dflt
  | _ => .error "AttributeError: object has no attribute get"

/-- Python `v.get(k)` with the implicit `None` default. -/
def pyGetD (v : JVal) (k : String) : Except String JVal :=
  pyGet v k .null

/-- Python `for x in v`: a list yields its elements, a string its
characters (as one-character strings), a dict its keys; `TypeError`
otherwise. -/
def pyIter (v : JVal) : Except String (List JVal) :=
  match v with
  | .jarr xs => .ok xs
  | .jstr s => .ok (s.toList.map (fun c => JVal.jstr (String.singleton c)))
  | .jobj fs => .ok (fs.map (fun p => JVal.jstr p.1))
  | _ => .error "TypeError: value is not iterable"

/-- A Python rank value as used by `extract_competitor_domains`: either
`float('inf')` (the default) or whatever JSON value sits under
`rank_absolute`. -/
inductive PyRankV where
  | posInf
  | val (v : JVal)
  deriving DecidableEq

/-- Python `item.get('rank_absolute', float('inf'))` as a rank value. -/
def pyGetRank (item : JVal) : Except String PyRankV :=
  match item with
  | .jobj fs =>
      match jlookup fs "rank_absolute" with
      | some r => .ok (.val r)
      | none => .ok .posInf
  | _ => .error "AttributeError: object has no attribute get"

/-- String less-than on code points (Python `str < str`). -/
def strLtChars : List Char → List Char → Bool
  | [], [] => false
  | [], _ :: _ => true
  | _ :: _, [] => false
  | a :: as, b :: bs => Nat.blt a.toNat b.toNat || (a == b && strLtChars as bs)

/-- Python `<` between two rank values.  Integers and booleans are
numeric and compare with each other and with `float('inf')`; two strings
compare lexicographically; every other combination (in particular `None`
against a number or against `float('inf')`) raises `TypeError`, exactly
as in Python 3. -/
def pyLtRank : PyRankV → PyRankV → Except String Bool
  | .val (.jnum a), .val (.jnum b) => .ok (a < b)
  | .val (.jnum a), .val (.jbool b) => .ok (a < (if b then 1 else 0))
  | .val (.jbool a), .val (.jnum b) => .ok ((if a then (1 : Int) else 0) < b)
  | .val (.jbool a), .val (.jbool b) =>
      .ok ((if a then (1 : Int) else 0) < (if b then 1 else 0))
  | .val (.jnum _), .posInf => .ok true
  | .val (.jbool _), .posInf => .ok true
  | .posInf, .val (.jnum _) => .ok false
  | .posInf, .val (.jbool _) => .ok false
  | .posInf, .posInf => .ok false
  | .val (.jstr a), .val (.jstr b) => .ok (strLtChars a.toList b.toList)
  | _, _ => .error "TypeError: < not supported between these operand types"

/-- The malformed-payload guard shared verbatim by
`check_for_competitor_ads` and `is_domain_ranked_number_one` in both
`src/serp_analysis/logic.py` and `src/serp_analysis.py`, followed by the
loop header `for item in serp_data['tasks'][0]['result'][0].get('items', [])`.
Returns `none` when the guard condition
`not serp_data or 'tasks' not in serp_data or not serp_data['tasks'] or
'result' not in serp_data['tasks'][0] or not serp_data['tasks'][0]['result']`
fires (the functions then return `False`), and the iterated item list
otherwise; propagates any Python exception the expression would raise. -/
def serpItemsIter (serp_data : JVal) : Except String (Option (List JVal)) :=
  if !truthy serp_data then .ok none else
  match pyContains "tasks" serp_data with
  | .error e => .error e
  | .ok false => .ok none
  | .ok true =>
  match pySubscr serp_data "tasks" with
  | .error e => .error e
  | .ok tasks =>
  if !truthy tasks then .ok none else
  match pyIndex tasks 0 with
  | .error e => .error e
  | .ok t0 =>
  match pyContains "result" t0 with
  | .error e => .error e
  | .ok false => .ok none
  | .ok true =>
  match pySubscr t0 "result" with
  | .error e => .error e
  | .ok result =>
  if !truthy result then .ok none else
  match pyIndex result 0 with
  | .error e => .error e
  | .ok r0 =>
  match pyGet r0 "items" (.jarr []) with
  | .error e => .error e
  | .ok items =>
  match pyIter items with
  | .error e => .error e
  | .ok xs => .ok (some xs)

/-- Inner loop of `check_for_competitor_ads`:
`for ad in item['ads']: if 'domain' in ad and ad['domain'] != domain_url:
return True`. -/
def checkAdsEntriesLoop (ads : List JVal) (domain_url : String) : Except String Bool :=
  match ads with
  | [] => .ok false
  | ad :: rest =>
      match pyContains "domain" ad with
      | .error e => .error e
      | .ok false => checkAdsEntriesLoop rest domain_url
      | .ok true =>
          match pySubscr ad "domain" with
          | .error e => .error e
          | .ok d => if !eqStr d domain_url then .ok true else checkAdsEntriesLoop rest domain_url

/-- Outer loop of `check_for_competitor_ads`:
`for item in ...: if item.get('type') == 'ads' and 'ads' in item: ...`. -/
def checkItemsLoop (items : List JVal) (domain_url : String) : Except String Bool :=
  match items with
  | [] => .ok false
  | item :: rest =>
      match pyGetD item "type" with
      | .error e => .error e
      | .ok t =>
          if eqStr t "ads" then
            match pyContains "ads" item with
            | .error e => .error e
            | .ok false => checkItemsLoop rest domain_url
            | .ok true =>
                match pySubscr item "ads" with
                | .error e => .error e
                | .ok adsv =>
                    match pyIter adsv with
                    | .error e => .error e
                    | .ok ads =>
                        match checkAdsEntriesLoop ads domain_url with
                        | .error e => .error e
                        | .ok true => .ok true
                        | .ok false => checkItemsLoop rest domain_url
          else checkItemsLoop rest domain_url

/-- Embedding of `check_for_competitor_ads(serp_data, domain_url)`.
The function is character-identical in `src/serp_analysis/logic.py`
(lines 1-11) and `src/serp_analysis.py` (lines 76-87): after the shared
malformed-payload guard it scans items of type `'ads'` for a nested ad
entry whose `'domain'` differs from `domain_url`. -/
def check_for_competitor_ads (serp_data : JVal) (domain_url : String) : Except String Bool :=
  match serpItemsIter serp_data with
  | .error e => .error e
  | .ok none => .ok false
  | .ok (some items) => checkItemsLoop items domain_url

/-- Loop of the `src/serp_analysis/logic.py` variant of
`is_domain_ranked_number_one` (lines 13-26): on an organic item with
`rank_absolute == 1` it returns `True` when the domain matches and keeps
scanning the remaining items otherwise. -/
def rankedItemsLoopLogic (items : List JVal) (domain_url : String) : Except String Bool :=
  match items with
  | [] => .ok false
  | item :: rest =>
      match pyGetD item "type" with
      | .error e => .error e
      | .ok t =>
          if eqStr t "organic" then
            match pyGetD item "rank_absolute" with
            | .error e => .error e
            | .ok r =>
                if eqNum r 1 then
                  match pyGetD item "domain" with
                  | .error e => .error e
                  | .ok d =>
                      if eqStr d domain_url then .ok true
                      else rankedItemsLoopLogic rest domain_url
                else rankedItemsLoopLogic rest domain_url
          else rankedItemsLoopLogic rest domain_url

/-- Loop of the `src/serp_analysis.py` variant of
`is_domain_ranked_number_one` (lines 89-103): at the first organic item
with `rank_absolute == 1` it returns `True` on a domain match and
`False` otherwise, without scanning further. -/
def rankedItemsLoopScript (items : List JVal) (domain_url : String) : Except String Bool :=
  match items with
  | [] => .ok false
  | item :: rest =>
      match pyGetD item "type" with
      | .error e => .error e
      | .ok t =>
          if eqStr t "organic" then
            match pyGetD item "rank_absolute" with
            | .error e => .error e
            | .ok r =>
                if eqNum r 1 then
                  match pyGetD item "domain" with
                  | .error e => .error e
                  | .ok d => .ok (eqStr d domain_url)
                else rankedItemsLoopScript rest domain_url
          else rankedItemsLoopScript rest domain_url

/-- Embedding of `is_domain_ranked_number_one` from
`src/serp_analysis/logic.py` (scan-all variant). -/
def is_domain_ranked_number_one (serp_data : JVal) (domain_url : String) : Except String Bool :=
  match serpItemsIter serp_data with
  | .error e => .error e
  | .ok none => .ok false
  | .ok (some items) => rankedItemsLoopLogic items domain_url

/-- Embedding of `is_domain_ranked_number_one` from
`src/serp_analysis.py` (early-return variant). -/
def is_domain_ranked_number_one_script (serp_data : JVal) (domain_url : String) : Except String Bool :=
  match serpItemsIter serp_data with
  | .error e => .error e
  | .ok none => .ok false
  | .ok (some items) => rankedItemsLoopScript items domain_url

/-- First loop of `extract_competitor_domains`
(`src/serp_analysis/main.py` lines 196-199): find the advertiser's own
organic rank, breaking at the first organic item whose domain matches;
the rank defaults to `float('inf')` both when the domain is absent and
when the matching item has no `rank_absolute` key. -/
def findMyDomainRank (items : List JVal) (my_domain : String) : Except String PyRankV :=
  match items with
  | [] => .ok .posInf
  | item :: rest =>
      match pyGetD item "type" with
      | .error e => .error e
      | .ok t =>
          if eqStr t "organic" then
            match pyGetD item "domain" with
            | .error e => .error e
            | .ok d =>
                if eqStr d my_domain then pyGetRank item
                else findMyDomainRank rest my_domain
          else findMyDomainRank rest my_domain

/-- Python `set.add` on a list model of the set: the accumulated list
stays duplicate-free. -/
def insertSet (acc : List JVal) (d : JVal) : List JVal :=
  if acc.contains d then acc else acc ++ [d]

/-- Second loop of `extract_competitor_domains`
(`src/serp_analysis/main.py` lines 201-214): skip falsy domains and the
advertiser's own; add paid-item domains; add organic-item domains whose
`rank_absolute` (default `float('inf')`) compares strictly below the
advertiser's own rank — a comparison that raises `TypeError` when the
stored rank is `None` or otherwise non-comparable. -/
def collectCompetitors (items : List JVal) (my_domain : String) (myRank : PyRankV)
    (acc : List JVal) : Except String (List JVal) :=
  match items with
  | [] => .ok acc
  | item :: rest =>
      match pyGetD item "type" with
      | .error e => .error e
      | .ok item_type =>
          match pyGetD item "domain" with
          | .error e => .error e
          | .ok domain =>
              if !truthy domain || eqStr domain my_domain then
                collectCompetitors rest my_domain myRank acc
              else
                let acc1 := if eqStr item_type "paid" then insertSet acc domain else acc
                if eqStr item_type "organic" then
                  match pyGetRank item with
                  | .error e => .error e
                  | .ok r =>
                      match pyLtRank r myRank with
                      | .error e => .error e
                      | .ok b =>
                          collectCompetitors rest my_domain myRank
                            (if b then insertSet acc1 domain else acc1)
                else collectCompetitors rest my_domain myRank acc1

/-- Embedding of `extract_competitor_domains(serp_data, my_domain)` from
`src/serp_analysis/main.py` (lines 184-216).  Its guard carries one extra
conjunct (`'items' not in serp_data['tasks'][0]['result'][0]`) compared
with the boolean checks, returns `[]` (after a logged warning) when it
fires, and afterwards reads the item list by plain subscript. -/
def extract_competitor_domains (serp_data : JVal) (my_domain : String) :
    Except String (List JVal) :=
  if !truthy serp_data then .ok [] else
  match pyContains "tasks" serp_data with
  | .error e => .error e
  | .ok false => .ok []
  | .ok true =>
  match pySubscr serp_data "tasks" with
  | .error e => .error e
  | .ok tasks =>
  if !truthy tasks then .ok [] else
  match pyIndex tasks 0 with
  | .error e => .error e
  | .ok t0 =>
  match pyContains "result" t0 with
  | .error e => .error e
  | .ok false => .ok []
  | .ok true =>
  match pySubscr t0 "result" with
  | .error e => .error e
  | .ok result =>
  if !truthy result then .ok [] else
  match pyIndex result 0 with
  | .error e => .error e
  | .ok r0 =>
  match pyContains "items" r0 with
  | .error e => .error e
  | .ok false => .ok []
  | .ok true =>
  match pySubscr r0 "items" with
  | .error e => .error e
  | .ok itemsv =>
  match pyIter itemsv with
  | .error e => .error e
  | .ok items =>
  match findMyDomainRank items my_domain with
  | .error e => .error e
  | .ok myRank => collectCompetitors items my_domain myRank []

/-- The per-keyword status rule of `src/serp_analysis/main.py`
(lines 267-272): start from the stored status, switch to ENABLED when a
competitor ad shows on either device, otherwise to PAUSED when the
domain ranks first on both devices — and otherwise keep the stored
status unchanged (there is no final else branch). -/
def decisionRuleMain (current_status : String) (dAd mAd dR1 mR1 : Bool) : String :=
  if dAd || mAd then "ENABLED"
  else if dR1 && mR1 then "PAUSED"
  else current_status

/-- The per-keyword status rule of `src/serp_analysis.py`
(lines 167-179): ENABLED on any competitor ad, else PAUSED when ranked
first on both devices, else explicitly ENABLED. -/
def decisionRuleScript (dAd mAd dR1 mR1 : Bool) : String :=
  if dAd || mAd then "ENABLED"
  else if dR1 && mR1 then "PAUSED"
  else "ENABLED"

/-- The decision computed for one keyword by the sync loop of
`src/serp_analysis/main.py`: the four analysis booleans (using the
`logic.py` functions) combined by `decisionRuleMain`. -/
def mainDecision (desktop mobile : JVal) (domain_url current_status : String) :
    Except String String :=
  match check_for_competitor_ads desktop domain_url with
  | .error e => .error e
  | .ok dAd =>
  match check_for_competitor_ads mobile domain_url with
  | .error e => .error e
  | .ok mAd =>
  match is_domain_ranked_number_one desktop domain_url with
  | .error e => .error e
  | .ok dR1 =>
  match is_domain_ranked_number_one mobile domain_url with
  | .error e => .error e
  | .ok mR1 => .ok (decisionRuleMain current_status dAd mAd dR1 mR1)

/-- Guarded analysis call of `src/serp_analysis.py`:
`check_for_competitor_ads(serp, domain) if serp else False`. -/
def scriptCheckAd (serp : JVal) (domain_url : String) : Except String Bool :=
  if truthy serp then check_for_competitor_ads serp domain_url else .ok false

/-- Guarded analysis call of `src/serp_analysis.py`:
`is_domain_ranked_number_one(serp, domain) if serp else False`. -/
def scriptRankedOne (serp : JVal) (domain_url : String) : Except String Bool :=
  if truthy serp then is_domain_ranked_number_one_script serp domain_url else .ok false

/-- The decision computed for one keyword by the sync loop of
`src/serp_analysis.py` (script variant). -/
def scriptDecision (desktop mobile : JVal) (domain_url : String) :
    Except String String :=
  match scriptCheckAd desktop domain_url with
  | .error e => .error e
  | .ok dAd =>
  match scriptCheckAd mobile domain_url with
  | .error e => .error e
  | .ok mAd =>
  match scriptRankedOne desktop domain_url with
  | .error e => .error e
  | .ok dR1 =>
  match scriptRankedOne mobile domain_url with
  | .error e => .error e
  | .ok mR1 => .ok (decisionRuleScript dAd mAd dR1 mR1)

/-- An invocation of the warehouse sink
(`update_keyword_data(client, keyword, new_status, competitor_domains)`). -/
structure SinkCall where
  keyword : String
  new_status : String
  competitor_domains : List JVal
  deriving DecidableEq

/-- Python `list(set(xs))`: deduplicate a list. -/
def setOfList (xs : List JVal) : List JVal := xs.foldl insertSet []

/-- Per-keyword body of the `src/serp_analysis/main.py` loop after the
SERP analysis (lines 274-290): whenever `new_status` is a non-empty
(truthy) string, competitors are extracted from both devices, merged
with `list(set(...))`, and `update_keyword_data` is called — there is no
comparison against `current_status`. Returns the sink invocation made,
if any. -/
def mainProcessRow (desktop mobile : JVal) (keyword domain_url current_status : String) :
    Except String (Option SinkCall) :=
  match mainDecision desktop mobile domain_url current_status with
  | .error e => .error e
  | .ok ns =>
      if ns != "" then
        match extract_competitor_domains desktop domain_url with
        | .error e => .error e
        | .ok dc =>
        match extract_competitor_domains mobile domain_url with
        | .error e => .error e
        | .ok mc => .ok (some ⟨keyword, ns, setOfList (dc ++ mc)⟩)
      else .ok none

/-- Per-keyword body of the `src/serp_analysis.py` loop (lines 181-185):
`update_keyword_status` is called only when `new_status` is truthy and
differs from `current_status`.  Returns the `(keyword, new_status)`
update made, if any. -/
def scriptProcessRow (desktop mobile : JVal) (keyword domain_url current_status : String) :
    Except String (Option (String × String)) :=
  match scriptDecision desktop mobile domain_url with
  | .error e => .error e
  | .ok ns =>
      .ok (if ns != "" && ns != current_status then some (keyword, ns) else none)

/-- A keyword row as read from the BigQuery table:
`SELECT keyword, status, domain_url`. -/
structure KeywordRow where
  keyword : String
  status : String
  domain_url : String
  deriving DecidableEq

/-- Outcome of the BigQuery fetch attempt: the query either returns a
row list or raises. -/
inductive FetchOutcome where
  | success (rows : List KeywordRow)
  | failure
  deriving DecidableEq

/-- `get_keywords_from_bigquery` of `src/serp_analysis/main.py`
(lines 112-135): the row list on success, `None` on an exception. -/
def get_keywords_from_bigquery (fetch : FetchOutcome) : Option (List KeywordRow) :=
  match fetch with
  | .success rows => some rows
  | .failure => none

/-- `get_keywords_from_bigquery` of `src/serp_analysis.py`
(lines 16-27): the row list on success, the empty list on an exception. -/
def get_keywords_from_bigquery_script (fetch : FetchOutcome) : List KeywordRow :=
  match fetch with
  | .success rows => rows
  | .failure => []

/-- How a sync cycle leaves its row-fetching phase. -/
inductive CycleExit where
  | fetchFailureHalt
  | noKeywordsExit
  | processRows (rows : List KeywordRow)
  deriving DecidableEq

/-- Entry phase of the `src/serp_analysis/main.py` request handler
(lines 233-240): a `None` fetch result halts with an error response, an
empty list exits cleanly, otherwise the rows are processed. -/
def mainCycleEntry (fetch : FetchOutcome) : CycleExit :=
  match get_keywords_from_bigquery fetch with
  | none => .fetchFailureHalt
  | some [] => .noKeywordsExit
  | some rows => .processRows rows

/-- Entry phase of the `src/serp_analysis.py` `main()` (lines 136-143):
only the emptiness of the returned list is inspected. -/
def scriptCycleEntry (fetch : FetchOutcome) : CycleExit :=
  match get_keywords_from_bigquery_script fetch with
  | [] => .noKeywordsExit
  | rows => .processRows rows

/-- HTTP response returned by `src/serp_analysis/main.py` when the cycle
exits before processing rows. -/
def mainExitResponse (exit : CycleExit) : Option (String × Nat) :=
  match exit with
  | .fetchFailureHalt =>
      some ("Processing halted due to an error while fetching from BigQuery.", 500)
  | .noKeywordsExit => some ("No keywords found", 200)
  | .processRows _ => none

/-- A row of the `keyword_updates` table consumed by the Google-Ads push
component (`src/main.py`). -/
structure GadsRow where
  ad_group_id : Nat
  criterion_id : Nat
  new_status : String
  deriving DecidableEq

/-- One mutate operation built for the Google-Ads API. -/
structure GadsOperation where
  ad_group_id : Nat
  criterion_id : Nat
  status : String
  deriving DecidableEq

/-- Python `str.upper()` (on the ASCII statuses handled here). -/
def pyUpper (s : String) : String := String.mk (s.data.map Char.toUpper)

/-- Operation-building loop of `update_google_ads_keywords` in
`src/main.py` (lines 84-105): each row's status is uppercased; rows
whose status is not ENABLED or PAUSED are skipped with a logged message
and produce no mutate operation. -/
def buildMutateOperations (rows : List GadsRow) : List GadsOperation :=
  rows.filterMap (fun row =>
    let ns := pyUpper row.new_status
    if ns == "ENABLED" || ns == "PAUSED" then
      some { ad_group_id := row.ad_group_id, criterion_id := row.criterion_id, status := ns }
    else none)

/-- Spec-side reader of the expected payload shape: the item list under
`tasks[0].result[0].items` when every intermediate level has exactly the
documented type, and `none` otherwise. -/
def specSerpItems (serp : JVal) : Option (List JVal) :=
  match serp with
  | .jobj fs =>
      match jlookup fs "tasks" with
      | some (.jarr (t0 :: _)) =>
          match t0 with
          | .jobj tfs =>
              match jlookup tfs "result" with
              | some (.jarr (r0 :: _)) =>
                  match r0 with
                  | .jobj rfs =>
                      match jlookup rfs "items" with
                      | some (.jarr xs) => some xs
                      | _ => none
                  | _ => none
              | _ => none
          | _ => none
      | _ => none
  | _ => none

/-- Whether a SERP item is an object whose `type` field equals `t`. -/
def itemType (item : JVal) (t : String) : Bool :=
  match item with
  | .jobj fs =>
      match jlookup fs "type" with
      | some x => eqStr x t
      | none => false
  | _ => false

/-- The `domain` field of a SERP item object, when present. -/
def itemDomain (item : JVal) : Option JVal :=
  match item with
  | .jobj fs => jlookup fs "domain"
  | _ => none

/-- The `rank_absolute` field of a SERP item as a rank value, defaulting
to positive infinity. -/
def itemRank (item : JVal) : PyRankV :=
  match item with
  | .jobj fs =>
      match jlookup fs "rank_absolute" with
      | some r => .val r
      | none => .posInf
  | _ => .posInf

/-- Total boolean version of the rank comparison, used on the spec side
(`false` where the Python comparison would raise). -/
def specLtB (a b : PyRankV) : Bool :=
  match pyLtRank a b with
  | .ok x => x
  | .error _ => false

/-- Spec-side advertiser rank: the `rank_absolute` of the first organic
item whose domain equals the advertiser's, defaulting to infinity. -/
def specMyRank (items : List JVal) (my_domain : String) : PyRankV :=
  match items with
  | [] => .posInf
  | item :: rest =>
      if itemType item "organic" &&
          (match itemDomain item with | some d => eqStr d my_domain | none => false) then
        itemRank item
      else specMyRank rest my_domain

/-- A nested ad entry carrying a `domain` attribute different from the
advertiser's domain. -/
def adEntryCompetitor (domain_url : String) (ad : JVal) : Bool :=
  match ad with
  | .jobj fs =>
      match jlookup fs "domain" with
      | some v => !eqStr v domain_url
      | none => false
  | _ => false

/-- An item of type `'ads'` containing a nested competitor ad entry. -/
def itemAdsCompetitor (domain_url : String) (item : JVal) : Bool :=
  match item with
  | .jobj fs =>
      (match jlookup fs "type" with | some t => eqStr t "ads" | none => false) &&
      (match jlookup fs "ads" with
       | some (.jarr ads) => ads.any (adEntryCompetitor domain_url)
       | _ => false)
  | _ => false

/-- An item of type `'paid'` carrying a `domain` attribute different
from the advertiser's domain (what the spec additionally counts as a
competitor ad). -/
def itemPaidCompetitor (domain_url : String) (item : JVal) : Bool :=
  match item with
  | .jobj fs =>
      (match jlookup fs "type" with | some t => eqStr t "paid" | none => false) &&
      (match jlookup fs "domain" with | some v => !eqStr v domain_url | none => false)
  | _ => false

/-- Modelled from the spec: the competitor-ad predicate exactly as claim
C4 states it — some item of type `'paid'`, or of type `'ads'` with
nested ad entries, carries a domain attribute different from the
advertiser's domain. -/
def specHasCompetitorAd (serp : JVal) (domain_url : String) : Bool :=
  match specSerpItems serp with
  | some xs =>
      xs.any (fun item => itemPaidCompetitor domain_url item || itemAdsCompetitor domain_url item)
  | none => false

/-- The competitor-ad predicate the code actually decides: only items of
type `'ads'` with nested entries count; `'paid'` items are ignored. -/
def adsOnlyCompetitorAd (serp : JVal) (domain_url : String) : Bool :=
  match specSerpItems serp with
  | some xs => xs.any (itemAdsCompetitor domain_url)
  | none => false

/-- Modelled from the spec: membership in the competitor set exactly as
claim C8 states it — a value under some item's `domain`, different from
the advertiser's domain, belonging to a paid item or to an organic item
ranked strictly better than the advertiser's own organic rank. -/
def specCompetitorMember (serp : JVal) (my_domain : String) (v : JVal) : Bool :=
  match specSerpItems serp with
  | some xs =>
      !eqStr v my_domain &&
      xs.any (fun item =>
        (match itemDomain item with | some d => d == v | none => false) &&
        (itemType item "paid" ||
         (itemType item "organic" && specLtB (itemRank item) (specMyRank xs my_domain))))
  | none => false

/-- Membership in the competitor set as the code computes it: like
`specCompetitorMember` but additionally requiring the domain value to be
truthy (the code skips falsy domains such as the empty string). -/
def amendedCompetitorMember (serp : JVal) (my_domain : String) (v : JVal) : Bool :=
  match specSerpItems serp with
  | some xs =>
      truthy v && !eqStr v my_domain &&
      xs.any (fun item =>
        (match itemDomain item with | some d => d == v | none => false) &&
        (itemType item "paid" ||
         (itemType item "organic" && specLtB (itemRank item) (specMyRank xs my_domain))))
  | none => false

/-- Canonical well-formed payload carrying exactly the given item list. -/
def mkSerp (items : List JVal) : JVal :=
  .jobj [("tasks", .jarr [.jobj [("result", .jarr [.jobj [("items", .jarr items)]])]])]

/-- The zero-item payload used as the reference behaviour for malformed
inputs. -/
def zeroItemsSerp : JVal := mkSerp []

/-- Payload with one `'ads'` item holding one competitor ad entry. -/
def adsSerp : JVal :=
  mkSerp [.jobj [("type", .jstr "ads"), ("ads", .jarr [.jobj [("domain", .jstr "rival.com")]])]]

/-- Payload with one `'paid'` item from a rival domain (no `'ads'`
wrapper item). -/
def paidSerp : JVal :=
  mkSerp [.jobj [("type", .jstr "paid"), ("domain", .jstr "rival.com")]]

/-- Payload whose single organic item carries `rank_absolute: null`. -/
def nullRankSerp : JVal :=
  mkSerp [.jobj [("type", .jstr "organic"), ("domain", .jstr "rival.com"),
                 ("rank_absolute", .null)]]

/-- Payload with one `'paid'` item whose domain is the empty string. -/
def emptyDomainSerp : JVal :=
  mkSerp [.jobj [("type", .jstr "paid"), ("domain", .jstr "")]]

/-- Payload with two organic items both claiming `rank_absolute == 1`,
the first from another domain and the second from `mine.com`. -/
def twoRankOneSerp : JVal :=
  mkSerp [.jobj [("type", .jstr "organic"), ("rank_absolute", .jnum 1),
                 ("domain", .jstr "other.com")],
          .jobj [("type", .jstr "organic"), ("rank_absolute", .jnum 1),
                 ("domain", .jstr "mine.com")]]

/-- Payload whose single organic item ranks `example.com` first. -/
def rankOneSerp : JVal :=
  mkSerp [.jobj [("type", .jstr "organic"), ("rank_absolute", .jnum 1),
                 ("domain", .jstr "example.com")]]

/-- Organic-only payload: a better-ranked competitor (rank 2), the
advertiser itself (rank 3) and a worse-ranked competitor (rank 5). -/
def organicMixSerp : JVal :=
  mkSerp [.jobj [("type", .jstr "organic"), ("rank_absolute", .jnum 2),
                 ("domain", .jstr "better.com")],
          .jobj [("type", .jstr "organic"), ("rank_absolute", .jnum 3),
                 ("domain", .jstr "example.com")],
          .jobj [("type", .jstr "organic"), ("rank_absolute", .jnum 5),
                 ("domain", .jstr "worse.com")]]

/-- Whether a JSON value is an object. -/
def isObj (v : JVal) : Bool :=
  match v with
  | .jobj _ => true
  | _ => false

/-- Conditions under which the competitor-collection loop records the
value `v` while visiting a given item: the item's `domain` equals `v`,
`v` is truthy and differs from the advertiser's domain, and the item is
a paid item or an organic item ranked strictly below the advertiser's
rank `rk`. -/
def collectMember (my_domain : String) (rk : PyRankV) (v : JVal) (item : JVal) : Bool :=
  (match itemDomain item with | some d => d == v | none => false) &&
  truthy v && !eqStr v my_domain &&
  (itemType item "paid" || (itemType item "organic" && specLtB (itemRank item) rk))

/-- Whether a SERP item is an organic result claiming `rank_absolute == 1`
(the branch condition both rank-check variants test). -/
def isRankOneOrganic (item : JVal) : Bool :=
  itemType item "organic" &&
  (match item with
   | .jobj fs =>
       (match jlookup fs "rank_absolute" with
        | some r => eqNum r 1
        | none => false)
   | _ => false)

/-! ### Helper lemmas -/

/-- A successful key lookup means some field carries the key. -/
theorem jlookup_any : ∀ (fs : List (String × JVal)) (k : String) (v : JVal),
    jlookup fs k = some v → fs.any (fun p => p.1 == k) = true
  | [], k, v, h => by simp [jlookup] at h
  | (k', w) :: rest, k, v, h => by
      by_cases hk : k' == k
      · simp [hk]
      · simp only [jlookup, hk, if_false] at h
        simp [hk, jlookup_any rest k v h]

/-- A falsy payload makes `check_for_competitor_ads` return `False`. -/
theorem check_falsy (serp : JVal) (dom : String) (h : truthy serp = false) :
    check_for_competitor_ads serp dom = .ok false := by
  simp [check_for_competitor_ads, serpItemsIter, h]

/-- A falsy payload makes the script-variant rank check return `False`. -/
theorem ranked_script_falsy (serp : JVal) (dom : String) (h : truthy serp = false) :
    is_domain_ranked_number_one_script serp dom = .ok false := by
  simp [is_domain_ranked_number_one_script, serpItemsIter, h]

/-- The payload behind a successful competitor-ad detection is truthy. -/
theorem truthy_of_check_ok_true {serp : JVal} {dom : String}
    (h : check_for_competitor_ads serp dom = .ok true) : truthy serp = true := by
  by_contra hc
  rw [check_falsy serp dom (by simpa using hc)] at h
  simp at h

/-- The script-variant guarded ad check agrees with
`check_for_competitor_ads` whenever the latter returns a value. -/
theorem scriptCheckAd_eq {serp : JVal} {dom : String} {b : Bool}
    (h : check_for_competitor_ads serp dom = .ok b) :
    scriptCheckAd serp dom = .ok b := by
  unfold scriptCheckAd
  cases ht : truthy serp with
  | true => simpa [ht] using h
  | false => rw [check_falsy serp dom ht] at h; simpa [ht] using h.symm

/-- A falsy payload makes the logic-variant rank check return `False`. -/
theorem ranked_logic_falsy (serp : JVal) (dom : String) (h : truthy serp = false) :
    is_domain_ranked_number_one serp dom = .ok false := by
  simp [is_domain_ranked_number_one, serpItemsIter, h]

/-- The script-variant guarded rank check agrees with the unguarded
script rank check whenever the latter returns a value. -/
theorem scriptRankedOne_eq {serp : JVal} {dom : String} {b : Bool}
    (h : is_domain_ranked_number_one_script serp dom = .ok b) :
    scriptRankedOne serp dom = .ok b := by
  unfold scriptRankedOne
  cases ht : truthy serp with
  | true => simpa [ht] using h
  | false => rw [ranked_script_falsy serp dom ht] at h; simpa [ht] using h.symm

/-- The script decision rule only ever produces ENABLED or PAUSED. -/
theorem decisionRuleScript_vals (a b c d : Bool) :
    decisionRuleScript a b c d = "ENABLED" ∨ decisionRuleScript a b c d = "PAUSED" := by
  unfold decisionRuleScript
  split
  · exact Or.inl rfl
  · split
    · exact Or.inr rfl
    · exact Or.inl rfl

/-- A computed script decision is always ENABLED or PAUSED. -/
theorem scriptDecision_ok_vals {desktop mobile : JVal} {dom ns : String}
    (h : scriptDecision desktop mobile dom = .ok ns) :
    ns = "ENABLED" ∨ ns = "PAUSED" := by
  unfold scriptDecision at h
  repeat' split at h
  all_goals first
    | exact (Except.ok.inj h) ▸ decisionRuleScript_vals _ _ _ _
    | exact absurd h (by simp)

/-! ### Claim C1 -/

/-- Claim C1 (confirmed): whenever `check_for_competitor_ads` holds for
at least one evaluated device, the decision computed by either sync loop
(the packaged service of `src/serp_analysis/main.py` and the script of
`src/serp_analysis.py`) is ENABLED, regardless of rank-1 status and of
the record's current status. -/
theorem c1_competitor_ad_wins (desktop mobile : JVal) (dom cs s : String)
    (hAd : check_for_competitor_ads desktop dom = .ok true ∨
           check_for_competitor_ads mobile dom = .ok true) :
    (mainDecision desktop mobile dom cs = .ok s → s = "ENABLED") ∧
    (scriptDecision desktop mobile dom = .ok s → s = "ENABLED") := by
  have hsa : scriptCheckAd desktop dom = .ok true ∨ scriptCheckAd mobile dom = .ok true := by
    rcases hAd with h | h
    · exact Or.inl (scriptCheckAd_eq h)
    · exact Or.inr (scriptCheckAd_eq h)
  constructor
  · intro h
    unfold mainDecision at h
    rcases hAd with ha | ha <;>
      (repeat' split at h) <;> simp_all [decisionRuleMain]
  · intro h
    unfold scriptDecision at h
    rcases hsa with ha | ha <;>
      (repeat' split at h) <;> simp_all [decisionRuleScript]

/-- Witness for C1: a competitor ad on the desktop payload (while the
advertiser ranks first nowhere relevant) yields the ENABLED decision in
the packaged-service loop. -/
theorem c1_competitor_ad_wins_witness :
    check_for_competitor_ads adsSerp "example.com" = .ok true ∧ "ENABLED" = "ENABLED" :=
  ⟨by decide,
   (c1_competitor_ad_wins adsSerp JVal.null "example.com" "PAUSED" "ENABLED"
      (Or.inl (by decide))).1 (by decide)⟩

/-! ### Claim C2 -/

/-- Counterexample for C2: with no competitor ad on either device and
the domain not ranked first anywhere, the `src/serp_analysis/main.py`
loop keeps the record's current status PAUSED instead of switching to
ENABLED as the claim requires. -/
theorem c2_cex_fallback_keeps_current_status :
    check_for_competitor_ads JVal.null "example.com" = .ok false ∧
    is_domain_ranked_number_one JVal.null "example.com" = .ok false ∧
    mainDecision JVal.null JVal.null "example.com" "PAUSED" = .ok "PAUSED" ∧
    "PAUSED" ≠ "ENABLED" := by decide

/-- Claim C2 as amended: with no competitor ad on either device, the
script loop of `src/serp_analysis.py` decides PAUSED when ranked first
on both devices and ENABLED otherwise, while the packaged-service loop
of `src/serp_analysis/main.py` decides PAUSED when ranked first on both
devices and otherwise keeps the record's current status. -/
theorem c2_amended_no_ad_decision (desktop mobile : JVal) (dom cs : String)
    (hD : check_for_competitor_ads desktop dom = .ok false)
    (hM : check_for_competitor_ads mobile dom = .ok false) :
    (∀ a b, is_domain_ranked_number_one desktop dom = .ok a →
            is_domain_ranked_number_one mobile dom = .ok b →
            mainDecision desktop mobile dom cs = .ok (if a && b then "PAUSED" else cs)) ∧
    (∀ a b, is_domain_ranked_number_one_script desktop dom = .ok a →
            is_domain_ranked_number_one_script mobile dom = .ok b →
            scriptDecision desktop mobile dom = .ok (if a && b then "PAUSED" else "ENABLED")) := by
  constructor
  · intro a b ha hb
    unfold mainDecision
    rw [hD, hM, ha, hb]
    cases hab : (a && b) <;> simp [decisionRuleMain, hab]
  · intro a b ha hb
    unfold scriptDecision
    rw [scriptCheckAd_eq hD, scriptCheckAd_eq hM, scriptRankedOne_eq ha, scriptRankedOne_eq hb]
    cases hab : (a && b) <;> simp [decisionRuleScript, hab]

/-- Witness for the amended C2: ranked first on desktop only, no ads —
the packaged-service loop keeps the stored status ENABLED. -/
theorem c2_amended_no_ad_decision_witness :
    mainDecision rankOneSerp JVal.null "example.com" "ENABLED" =
      .ok (if true && false then "PAUSED" else "ENABLED") :=
  (c2_amended_no_ad_decision rankOneSerp JVal.null "example.com" "ENABLED"
      (by decide) (by decide)).1 true false (by decide) (by decide)

/-! ### Claim C3 -/

/-- Counterexample for C3: the `src/serp_analysis/main.py` loop invokes
the warehouse sink even when the computed status equals the stored one
(here both ENABLED), contradicting the write-only-on-change claim. -/
theorem c3_cex_sink_called_when_unchanged :
    mainDecision JVal.null JVal.null "example.com" "ENABLED" = .ok "ENABLED" ∧
    mainProcessRow JVal.null JVal.null "kw" "example.com" "ENABLED" =
      .ok (some ⟨"kw", "ENABLED", []⟩) := by decide

/-- Claim C3 as amended: in the `src/serp_analysis.py` loop the sink is
invoked exactly when the computed status differs from the stored one;
in the `src/serp_analysis/main.py` loop the sink is invoked exactly when
the computed status is a non-empty string, even when unchanged. -/
theorem c3_amended_sink_condition (desktop mobile : JVal) (kw dom cs : String) :
    (∀ r ns, scriptProcessRow desktop mobile kw dom cs = .ok r →
             scriptDecision desktop mobile dom = .ok ns →
             r = if ns = cs then none else some (kw, ns)) ∧
    (∀ r ns, mainProcessRow desktop mobile kw dom cs = .ok r →
             mainDecision desktop mobile dom cs = .ok ns →
             (r.isSome ↔ ns ≠ "")) := by
  constructor
  · intro r ns h hd
    have hne : (ns != "") = true := by
      rcases scriptDecision_ok_vals hd with h1 | h1 <;> simp [h1]
    unfold scriptProcessRow at h
    rw [hd] at h
    simp only [hne, Bool.true_and] at h
    by_cases heq : ns = cs
    · simp [heq, bne_self_eq_false] at h
      simp [heq, ← h]
    · have : (ns != cs) = true := by simp [bne, heq]
      simp [this] at h
      simp [heq, ← h]
  · intro r ns h hd
    unfold mainProcessRow at h
    rw [hd] at h
    by_cases heq : ns = ""
    · simp [heq] at h
      simp [← h, heq]
    · have hb : (ns != "") = true := by simp [bne, heq]
      simp only [hb, if_true] at h
      repeat' split at h
      all_goals first
        | (have h2 := Except.ok.inj h; subst h2; simp [heq])
        | exact absurd h (by simp)

/-- Witness for the amended C3: a PAUSED record with empty evidence gets
an ENABLED decision in the script loop, and the sink call carries it. -/
theorem c3_amended_sink_condition_witness :
    (some ("kw", "ENABLED") : Option (String × String)) =
      (if ("ENABLED" : String) = "PAUSED" then none else some ("kw", "ENABLED")) :=
  (c3_amended_sink_condition JVal.null JVal.null "kw" "example.com" "PAUSED").1
    (some ("kw", "ENABLED")) "ENABLED" (by decide) (by decide)

/-! ### Claim C5 -/

/-- Claim C5 is a code bug: on a payload whose organic item stores
`rank_absolute: null`, `extract_competitor_domains` raises `TypeError`
(Python compares `None < float('inf')`), even though the two boolean
checks stay total there and a zero-item payload extracts cleanly. -/
theorem c5_null_rank_raises_in_extract :
    extract_competitor_domains nullRankSerp "example.com" =
      .error "TypeError: < not supported between these operand types" ∧
    check_for_competitor_ads nullRankSerp "example.com" = .ok false ∧
    is_domain_ranked_number_one nullRankSerp "example.com" = .ok false ∧
    extract_competitor_domains zeroItemsSerp "example.com" = .ok [] ∧
    check_for_competitor_ads JVal.null "example.com" = .ok false ∧
    extract_competitor_domains JVal.null "example.com" = .ok [] := by decide

/-! ### Claim C6 -/

/-- Counterexample for C6: a record whose stored status is UNKNOWN is
not skipped by the serp-analysis sync loop — it reaches the warehouse
sink carrying the unrecognized status. -/
theorem c6_cex_unknown_status_reaches_sink :
    mainProcessRow JVal.null JVal.null "kw" "example.com" "UNKNOWN" =
      .ok (some ⟨"kw", "UNKNOWN", []⟩) := by decide

/-- Claim C6 as amended: only the Google-Ads push component
(`src/main.py`) skips rows whose uppercased status is not
ENABLED/PAUSED — such a row contributes no mutate operation and every
emitted operation carries ENABLED or PAUSED — while the serp-analysis
loop performs no such check and passes an unrecognized stored status
straight back to the sink whenever no decision branch fires. -/
theorem c6_amended_skip_only_in_ads_push :
    (∀ (row : GadsRow) (rows : List GadsRow),
        pyUpper row.new_status ≠ "ENABLED" → pyUpper row.new_status ≠ "PAUSED" →
        buildMutateOperations (row :: rows) = buildMutateOperations rows) ∧
    (∀ (op : GadsOperation) (rows : List GadsRow), op ∈ buildMutateOperations rows →
        op.status = "ENABLED" ∨ op.status = "PAUSED") ∧
    (∀ kw dom cs : String, cs ≠ "" →
        mainProcessRow .null .null kw dom cs = .ok (some ⟨kw, cs, []⟩)) := by
  refine ⟨?_, ?_, ?_⟩
  · intro row rows h1 h2
    simp [buildMutateOperations, List.filterMap_cons, h1, h2]
  · intro op rows h
    simp only [buildMutateOperations, List.mem_filterMap] at h
    rcases h with ⟨row, _, hrow⟩
    split at hrow
    · rename_i hcond
      have hop := Option.some.inj hrow
      rw [Bool.or_eq_true] at hcond
      rcases hcond with hc | hc
      · left; rw [← hop]; exact eq_of_beq hc
      · right; rw [← hop]; exact eq_of_beq hc
    · simp at hrow
  · intro kw dom cs hcs
    have h1 : check_for_competitor_ads JVal.null dom = .ok false := check_falsy _ _ rfl
    have h2 : is_domain_ranked_number_one JVal.null dom = .ok false := ranked_logic_falsy _ _ rfl
    have hd : mainDecision JVal.null JVal.null dom cs = .ok cs := by
      unfold mainDecision; rw [h1, h2]; simp [decisionRuleMain]
    have hx : extract_competitor_domains JVal.null dom = .ok [] := by
      simp [extract_competitor_domains, truthy]
    unfold mainProcessRow
    rw [hd]
    have : (cs != "") = true := by simp [bne, hcs]
    simp [this, hx, setOfList, insertSet]

/-- Witness for the amended C6: an UNKNOWN-status Google-Ads row builds
no operation, while the serp loop writes UNKNOWN back to the sink. -/
theorem c6_amended_skip_only_in_ads_push_witness :
    buildMutateOperations [⟨1, 2, "UNKNOWN"⟩] = buildMutateOperations [] ∧
    mainProcessRow JVal.null JVal.null "kw" "example.com" "UNKNOWN" =
      .ok (some ⟨"kw", "UNKNOWN", []⟩) :=
  ⟨c6_amended_skip_only_in_ads_push.1 ⟨1, 2, "UNKNOWN"⟩ [] (by decide) (by decide),
   c6_amended_skip_only_in_ads_push.2.2 "kw" "example.com" "UNKNOWN" (by decide)⟩

/-! ### Claim C7 -/

/-- Counterexample for C7: in the `src/serp_analysis.py` script a
BigQuery fetch failure is folded into the empty-result exit — the cycle
reports the clean "no keywords" outcome, indistinguishable from an
empty table, instead of reporting failure. -/
theorem c7_cex_script_failure_looks_empty :
    scriptCycleEntry .failure = scriptCycleEntry (.success []) ∧
    scriptCycleEntry .failure = CycleExit.noKeywordsExit := by decide

/-- Claim C7 as amended: the packaged service of
`src/serp_analysis/main.py` does distinguish the two cases — an empty
row list exits cleanly with HTTP 200 and a fetch failure halts with
HTTP 500 before any per-keyword processing — while the script variant
of `src/serp_analysis.py` reports a fetch failure exactly like an empty
table. -/
theorem c7_amended_entry_behaviour :
    mainCycleEntry .failure = CycleExit.fetchFailureHalt ∧
    mainExitResponse (mainCycleEntry .failure) =
      some ("Processing halted due to an error while fetching from BigQuery.", 500) ∧
    mainCycleEntry (.success []) = CycleExit.noKeywordsExit ∧
    mainExitResponse (mainCycleEntry (.success [])) = some ("No keywords found", 200) ∧
    mainCycleEntry .failure ≠ mainCycleEntry (.success []) ∧
    scriptCycleEntry .failure = CycleExit.noKeywordsExit := by decide

/-! ### Claim C4 counterexample -/

/-- Counterexample for C4: a `'paid'` item from a rival domain is a
competitor ad according to the claim, but `check_for_competitor_ads`
ignores it and returns `False` (it only inspects `'ads'` items). -/
theorem c4_cex_paid_item_ignored :
    specHasCompetitorAd paidSerp "example.com" = true ∧
    check_for_competitor_ads paidSerp "example.com" = .ok false := by decide

/-! ### Bridge lemmas between the Python primitives and the spec-side
item predicates -/

/-- `.get` on an object never raises and yields the looked-up value or
the default `None`. -/
theorem pyGetD_obj (fs : List (String × JVal)) (k : String) :
    pyGetD (.jobj fs) k = .ok ((jlookup fs k).getD .null) := by
  cases h : jlookup fs k <;> simp [pyGetD, pyGet, h]

/-- The loop's type test on an object item coincides with `itemType`. -/
theorem eqStr_getD_type (fs : List (String × JVal)) (t : String) :
    eqStr ((jlookup fs "type").getD .null) t = itemType (.jobj fs) t := by
  cases h : jlookup fs "type" <;> simp [itemType, h, eqStr]

/-- The loop's `rank_absolute == 1` test on an object item coincides
with the spec-side rank-one field test. -/
theorem eqNum_getD_rank (fs : List (String × JVal)) :
    eqNum ((jlookup fs "rank_absolute").getD .null) 1 =
      (match jlookup fs "rank_absolute" with | some r => eqNum r 1 | none => false) := by
  cases h : jlookup fs "rank_absolute" <;> simp [h, eqNum]

/-! ### Inversion lemmas for the Python primitives -/

/-- A key that no field carries looks up to `none`. -/
theorem jlookup_none_of_any_false : ∀ (fs : List (String × JVal)) (k : String),
    fs.any (fun p => p.1 == k) = false → jlookup fs k = none
  | [], _, _ => rfl
  | (_, _) :: rest, k, h => by
      simp only [List.any_cons, Bool.or_eq_false_iff] at h
      simp only [jlookup, h.1, if_false]
      exact jlookup_none_of_any_false rest k h.2

/-- A successful string subscript exposes an object and its field. -/
theorem pySubscr_ok_obj {v : JVal} {k : String} {w : JVal} (h : pySubscr v k = .ok w) :
    ∃ fs, v = .jobj fs ∧ jlookup fs k = some w := by
  cases v <;> simp [pySubscr] at h
  case jobj fs =>
    cases hl : jlookup fs k with
    | none => rw [hl] at h; simp at h
    | some u => rw [hl] at h; simp at h; exact ⟨fs, rfl, h ▸ hl⟩

/-- A successful `.get` exposes an object; the result is the looked-up
field or the default. -/
theorem pyGet_ok_obj {v : JVal} {k : String} {d w : JVal} (h : pyGet v k d = .ok w) :
    ∃ fs, v = .jobj fs ∧ (jlookup fs k = some w ∨ (jlookup fs k = none ∧ w = d)) := by
  cases v <;> simp [pyGet] at h
  case jobj fs =>
    cases hl : jlookup fs k with
    | none => rw [hl] at h; simp at h; exact ⟨fs, rfl, Or.inr ⟨hl, h.symm⟩⟩
    | some u => rw [hl] at h; simp at h; exact ⟨fs, rfl, Or.inl (h ▸ hl)⟩

/-- A successful index 0 exposes a non-empty array with the result as
head, or a string with a one-character string result. -/
theorem pyIndex_zero_ok {v w : JVal} (h : pyIndex v 0 = .ok w) :
    (∃ ys, v = .jarr (w :: ys)) ∨ (∃ s : String, v = .jstr s ∧ ∃ t, w = .jstr t) := by
  cases v <;> simp [pyIndex] at h
  case jarr xs =>
    cases xs with
    | nil => simp at h
    | cons x ys => simp at h; exact Or.inl ⟨ys, by rw [h]⟩
  case jstr s =>
    cases hc : s.data[0]? with
    | none => rw [hc] at h; simp at h
    | some c => rw [hc] at h; simp at h; exact Or.inr ⟨s, rfl, String.singleton c, h.symm⟩

/-- `pyGetRank` on an object never raises and agrees with `itemRank`. -/
theorem pyGetRank_obj (fs : List (String × JVal)) :
    pyGetRank (.jobj fs) = .ok (itemRank (.jobj fs)) := by
  cases h : jlookup fs "rank_absolute" <;> simp [pyGetRank, itemRank, h]

/-! ### Claim C4: characterization of the competitor-ad scan -/

/-- Iterating a collection of plain strings (characters of a string, keys
of a dict) through the nested ad loop can never report a competitor. -/
theorem checkAdsEntriesLoop_strs : ∀ (ads : List JVal) (dom : String) (b : Bool),
    (∀ x ∈ ads, ∃ t, x = JVal.jstr t) → checkAdsEntriesLoop ads dom = .ok b → b = false
  | [], _, _, _, h => by simp [checkAdsEntriesLoop] at h; exact h
  | ad :: rest, dom, b, hstr, h => by
      obtain ⟨t, rfl⟩ := hstr ad (by simp)
      cases hc : charsSub "domain".toList t.toList with
      | false =>
          simp only [checkAdsEntriesLoop, pyContains, hc] at h
          exact checkAdsEntriesLoop_strs rest dom b (fun x hx => hstr x (by simp [hx])) h
      | true =>
          simp only [checkAdsEntriesLoop, pyContains, hc, pySubscr] at h
          exact Except.noConfusion h

/-- When the nested ad loop completes, its boolean says exactly whether
some nested entry is a competitor ad. -/
theorem checkAdsEntriesLoop_iff : ∀ (ads : List JVal) (dom : String) (b : Bool),
    checkAdsEntriesLoop ads dom = .ok b →
    (b = true ↔ ads.any (adEntryCompetitor dom) = true)
  | [], dom, b, h => by
      simp [checkAdsEntriesLoop] at h
      simp [h]
  | ad :: rest, dom, b, h => by
      cases ad with
      | null => simp [checkAdsEntriesLoop, pyContains] at h
      | jbool x => simp [checkAdsEntriesLoop, pyContains] at h
      | jnum x => simp [checkAdsEntriesLoop, pyContains] at h
      | jstr s =>
          cases hc : charsSub "domain".toList s.toList with
          | false =>
              simp only [checkAdsEntriesLoop, pyContains, hc] at h
              have := checkAdsEntriesLoop_iff rest dom b h
              simpa [adEntryCompetitor] using this
          | true =>
              simp only [checkAdsEntriesLoop, pyContains, hc, pySubscr] at h
              exact Except.noConfusion h
      | jarr ys =>
          cases hc : ys.any (fun x => eqStr x "domain") with
          | false =>
              simp only [checkAdsEntriesLoop, pyContains, hc] at h
              have := checkAdsEntriesLoop_iff rest dom b h
              simpa [adEntryCompetitor] using this
          | true =>
              simp only [checkAdsEntriesLoop, pyContains, hc, pySubscr] at h
              exact Except.noConfusion h
      | jobj fs =>
          cases hc : fs.any (fun p => p.1 == "domain") with
          | false =>
              simp only [checkAdsEntriesLoop, pyContains, hc] at h
              have := checkAdsEntriesLoop_iff rest dom b h
              have hnone := jlookup_none_of_any_false fs "domain" hc
              simpa [adEntryCompetitor, hnone] using this
          | true =>
              cases hl : jlookup fs "domain" with
              | none =>
                  simp only [checkAdsEntriesLoop, pyContains, hc, pySubscr, hl] at h
                  exact Except.noConfusion h
              | some d =>
                  cases hd : eqStr d dom with
                  | false =>
                      simp only [checkAdsEntriesLoop, pyContains, hc, pySubscr, hl, hd,
                        Bool.not_false, if_true] at h
                      have hb := Except.ok.inj h
                      simp [← hb, adEntryCompetitor, hl, hd]
                  | true =>
                      simp only [checkAdsEntriesLoop, pyContains, hc, pySubscr, hl, hd,
                        Bool.not_true, if_false] at h
                      have := checkAdsEntriesLoop_iff rest dom b h
                      simpa [adEntryCompetitor, hl, hd] using this

/-- When the item loop completes, its boolean says exactly whether some
item is an `'ads'` item holding a competitor entry. -/
theorem checkItemsLoop_iff : ∀ (xs : List JVal) (dom : String) (b : Bool),
    checkItemsLoop xs dom = .ok b →
    (b = true ↔ xs.any (itemAdsCompetitor dom) = true)
  | [], dom, b, h => by
      simp [checkItemsLoop] at h
      simp [h]
  | item :: rest, dom, b, h => by
      cases item with
      | null => simp [checkItemsLoop, pyGetD, pyGet] at h
      | jbool x => simp [checkItemsLoop, pyGetD, pyGet] at h
      | jnum x => simp [checkItemsLoop, pyGetD, pyGet] at h
      | jstr s => simp [checkItemsLoop, pyGetD, pyGet] at h
      | jarr ys => simp [checkItemsLoop, pyGetD, pyGet] at h
      | jobj fs =>
          cases hty : itemType (.jobj fs) "ads" with
          | false =>
              simp only [checkItemsLoop, pyGetD_obj, eqStr_getD_type, hty, if_false] at h
              have := checkItemsLoop_iff rest dom b h
              have hity : (match jlookup fs "type" with
                  | some t => eqStr t "ads" | none => false) = false := by
                simpa [itemType] using hty
              simpa [itemAdsCompetitor, hity] using this
          | true =>
              cases hc : fs.any (fun p => p.1 == "ads") with
              | false =>
                  simp only [checkItemsLoop, pyGetD_obj, eqStr_getD_type, hty, if_true,
                    pyContains, hc] at h
                  have := checkItemsLoop_iff rest dom b h
                  have hnone := jlookup_none_of_any_false fs "ads" hc
                  have hia : itemAdsCompetitor dom (.jobj fs) = false := by
                    simp [itemAdsCompetitor, hnone]
                  simpa [hia] using this
              | true =>
                  cases hl : jlookup fs "ads" with
                  | none =>
                      simp only [checkItemsLoop, pyGetD_obj, eqStr_getD_type, hty, if_true,
                        pyContains, hc, pySubscr, hl] at h
                      exact Except.noConfusion h
                  | some adsv =>
                      have hity : (match jlookup fs "type" with
                          | some t => eqStr t "ads" | none => false) = true := by
                        simpa [itemType] using hty
                      cases adsv with
                      | null =>
                          simp only [checkItemsLoop, pyGetD_obj, eqStr_getD_type, hty, if_true,
                            pyContains, hc, pySubscr, hl, pyIter] at h
                          exact Except.noConfusion h
                      | jbool x =>
                          simp only [checkItemsLoop, pyGetD_obj, eqStr_getD_type, hty, if_true,
                            pyContains, hc, pySubscr, hl, pyIter] at h
                          exact Except.noConfusion h
                      | jnum x =>
                          simp only [checkItemsLoop, pyGetD_obj, eqStr_getD_type, hty, if_true,
                            pyContains, hc, pySubscr, hl, pyIter] at h
                          exact Except.noConfusion h
                      | jstr s =>
                          simp only [checkItemsLoop, pyGetD_obj, eqStr_getD_type, hty, if_true,
                            pyContains, hc, pySubscr, hl, pyIter] at h
                          cases hi : checkAdsEntriesLoop
                              (s.toList.map (fun c => JVal.jstr (String.singleton c))) dom with
                          | error e => rw [hi] at h; exact Except.noConfusion h
                          | ok b2 =>
                              have hb2 : b2 = false :=
                                checkAdsEntriesLoop_strs _ dom b2
                                  (by intro x hx
                                      simp only [List.mem_map] at hx
                                      obtain ⟨c, _, hcx⟩ := hx
                                      exact ⟨String.singleton c, hcx.symm⟩) hi
                              rw [hi, hb2] at h
                              have := checkItemsLoop_iff rest dom b h
                              have hia : itemAdsCompetitor dom (.jobj fs) = false := by
                                simp [itemAdsCompetitor, hl]
                              simpa [hia] using this
                      | jobj gs =>
                          simp only [checkItemsLoop, pyGetD_obj, eqStr_getD_type, hty, if_true,
                            pyContains, hc, pySubscr, hl, pyIter] at h
                          cases hi : checkAdsEntriesLoop
                              (gs.map (fun p => JVal.jstr p.1)) dom with
                          | error e => rw [hi] at h; exact Except.noConfusion h
                          | ok b2 =>
                              have hb2 : b2 = false :=
                                checkAdsEntriesLoop_strs _ dom b2
                                  (by intro x hx
                                      simp only [List.mem_map] at hx
                                      obtain ⟨p, _, hcx⟩ := hx
                                      exact ⟨p.1, hcx.symm⟩) hi
                              rw [hi, hb2] at h
                              have := checkItemsLoop_iff rest dom b h
                              have hia : itemAdsCompetitor dom (.jobj fs) = false := by
                                simp [itemAdsCompetitor, hl]
                              simpa [hia] using this
                      | jarr ads =>
                          simp only [checkItemsLoop, pyGetD_obj, eqStr_getD_type, hty, if_true,
                            pyContains, hc, pySubscr, hl, pyIter] at h
                          cases hi : checkAdsEntriesLoop ads dom with
                          | error e => rw [hi] at h; exact Except.noConfusion h
                          | ok b2 =>
                              rw [hi] at h
                              cases b2 with
                              | true =>
                                  have hb := Except.ok.inj h
                                  have hany := (checkAdsEntriesLoop_iff ads dom true hi).mp rfl
                                  simp [← hb, itemAdsCompetitor, hity, hl, hany]
                              | false =>
                                  have := checkItemsLoop_iff rest dom b h
                                  have hnoany :
                                      ads.any (adEntryCompetitor dom) = false := by
                                    have hiff := checkAdsEntriesLoop_iff ads dom false hi
                                    cases hx : ads.any (adEntryCompetitor dom)
                                    · rfl
                                    · exact absurd (hiff.mpr hx) (by simp)
                                  have hia : itemAdsCompetitor dom (.jobj fs) = false := by
                                    simp [itemAdsCompetitor, hl, hnoany]
                                  simpa [hia] using this

/-- A spec-shaped payload drives the shared guard to its item list. -/
theorem serpItemsIter_of_spec : ∀ (serp : JVal) (xs : List JVal),
    specSerpItems serp = some xs → serpItemsIter serp = .ok (some xs) := by
  intro serp xs h
  cases serp
  case jobj fs =>
    cases hT : jlookup fs "tasks"
    case some tv =>
      cases tv
      case jarr tlist =>
        cases tlist
        case cons t0 ts =>
          cases t0
          case jobj tfs =>
            cases hR : jlookup tfs "result"
            case some rv =>
              cases rv
              case jarr rlist =>
                cases rlist
                case cons r0 rs =>
                  cases r0
                  case jobj rfs =>
                    cases hI : jlookup rfs "items"
                    case some iv =>
                      cases iv
                      case jarr xs0 =>
                        simp only [specSerpItems, hT, hR, hI, Option.some.injEq] at h
                        subst h
                        have hfsE : fs.isEmpty = false := by
                          cases fs
                          · simp [jlookup] at hT
                          · rfl
                        simp [serpItemsIter, truthy, hfsE, pyContains,
                          jlookup_any _ _ _ hT, pySubscr, hT, pyIndex,
                          jlookup_any _ _ _ hR, hR, hI, pyGet, pyIter]
                      all_goals simp [specSerpItems, hT, hR, hI] at h
                    all_goals simp [specSerpItems, hT, hR, hI] at h
                  all_goals simp [specSerpItems, hT, hR] at h
                all_goals simp [specSerpItems, hT, hR] at h
              all_goals simp [specSerpItems, hT, hR] at h
            all_goals simp [specSerpItems, hT, hR] at h
          all_goals simp [specSerpItems, hT] at h
        all_goals simp [specSerpItems, hT] at h
      all_goals simp [specSerpItems, hT] at h
    all_goals simp [specSerpItems, hT] at h
  all_goals simp [specSerpItems] at h

/-- When the shared guard yields an item list containing at least one
object, the payload is spec-shaped with exactly that item list. -/
theorem spec_of_serpItemsIter {serp : JVal} {xs : List JVal}
    (h : serpItemsIter serp = .ok (some xs)) (hobj : ∃ it ∈ xs, isObj it = true) :
    specSerpItems serp = some xs := by
  unfold serpItemsIter at h
  repeat' split at h
  all_goals first
    | exact Except.noConfusion h
    | exact Option.noConfusion (Except.ok.inj h)
    | skip
  rename_i hTr x1 hc1 x2 tasks hs1 hTr2 x3 t0 hi1 x4 hc2 x5 result hs2 hTr3
    x6 r0 hi2 x7 itemsv hg x8 xs2 hit
  have hxs : xs2 = xs := by simpa using h
  subst hxs
  obtain ⟨fs, rfl, hT⟩ := pySubscr_ok_obj hs1
  obtain ⟨tfs, ht0, hR⟩ := pySubscr_ok_obj hs2
  subst ht0
  rcases pyIndex_zero_ok hi1 with ⟨ts, htasks⟩ | ⟨s, hsx, t, htx⟩
  · subst htasks
    obtain ⟨rfs, hr0, hIc⟩ := pyGet_ok_obj hg
    subst hr0
    rcases pyIndex_zero_ok hi2 with ⟨rs, hres⟩ | ⟨s2, hsx2, t2, htx2⟩
    · subst hres
      cases itemsv with
      | jarr xs3 =>
          have hx3 : xs3 = xs2 := by simpa [pyIter] using hit
          subst hx3
          rcases hIc with hIc | ⟨_, hIc⟩
          · simp [specSerpItems, hT, hR, hIc]
          · exfalso
            cases hIc
            rcases hobj with ⟨it, hin, _⟩
            simp at hin
      | jstr s3 =>
          exfalso
          have hx3 := Except.ok.inj hit
          rcases hobj with ⟨it, hin, hio⟩
          rw [← hx3] at hin
          simp only [List.mem_map] at hin
          obtain ⟨c, _, hcx⟩ := hin
          rw [← hcx] at hio
          simp [isObj] at hio
      | jobj gs =>
          exfalso
          have hx3 := Except.ok.inj hit
          rcases hobj with ⟨it, hin, hio⟩
          rw [← hx3] at hin
          simp only [List.mem_map] at hin
          obtain ⟨p, _, hcx⟩ := hin
          rw [← hcx] at hio
          simp [isObj] at hio
      | null => exact Except.noConfusion hit
      | jbool x => exact Except.noConfusion hit
      | jnum x => exact Except.noConfusion hit
    · exact JVal.noConfusion htx2
  · exact JVal.noConfusion htx

/-- Claim C4 as amended: whenever `check_for_competitor_ads` returns a
boolean, it is true exactly when some item of type `'ads'` contains a
nested ad entry whose `domain` attribute differs from the advertiser's
domain; items of type `'paid'` play no role. -/
theorem c4_amended_ads_only (serp : JVal) (dom : String) (b : Bool)
    (h : check_for_competitor_ads serp dom = .ok b) :
    (b = true ↔ adsOnlyCompetitorAd serp dom = true) := by
  unfold check_for_competitor_ads at h
  cases hI : serpItemsIter serp with
  | error e => rw [hI] at h; exact Except.noConfusion h
  | ok o =>
      rw [hI] at h
      cases o with
      | none =>
          simp at h
          cases hspec : specSerpItems serp with
          | none => simp [adsOnlyCompetitorAd, hspec, h]
          | some ys =>
              have h2 := serpItemsIter_of_spec _ _ hspec
              rw [hI] at h2
              exact Option.noConfusion (Except.ok.inj h2)
      | some xs =>
          simp only [] at h
          have hiff := checkItemsLoop_iff xs dom b h
          constructor
          · intro hb
            have hany := hiff.mp hb
            have hobj : ∃ it ∈ xs, isObj it = true := by
              rcases List.any_eq_true.mp hany with ⟨it, hin, had⟩
              refine ⟨it, hin, ?_⟩
              cases it <;> simp [itemAdsCompetitor] at had <;> simp [isObj]
            have hspec := spec_of_serpItemsIter hI hobj
            simp [adsOnlyCompetitorAd, hspec, hany]
          · intro hmem
            cases hspec : specSerpItems serp with
            | none => simp [adsOnlyCompetitorAd, hspec] at hmem
            | some ys =>
                have h2 := serpItemsIter_of_spec _ _ hspec
                rw [hI] at h2
                have hys : ys = xs := by
                  simpa using (Except.ok.inj h2).symm
                subst hys
                have hany : ys.any (itemAdsCompetitor dom) = true := by
                  simpa [adsOnlyCompetitorAd, hspec] using hmem
                exact hiff.mpr hany

/-- Witness for the amended C4: the ads-item payload makes both sides of
the equivalence true. -/
theorem c4_amended_ads_only_witness :
    adsOnlyCompetitorAd adsSerp "example.com" = true :=
  (c4_amended_ads_only adsSerp "example.com" true (by decide)).mp rfl

/-! ### Claim C8 counterexample -/

/-- Counterexample for C8: the empty-string domain of a paid item is a
domain different from the advertiser's, so the claim puts it in the
output, but the code's falsy-domain guard drops it. -/
theorem c8_cex_empty_string_domain_dropped :
    specCompetitorMember emptyDomainSerp "example.com" (JVal.jstr "") = true ∧
    extract_competitor_domains emptyDomainSerp "example.com" = .ok [] := by decide

/-! ### Claims C8 and C9: characterization of the competitor-domain
extraction -/

/-- The loop's domain-equality test on an object item coincides with the
spec-side field test. -/
theorem eqStr_getD_domain (fs : List (String × JVal)) (my : String) :
    eqStr ((jlookup fs "domain").getD .null) my =
      (match itemDomain (.jobj fs) with | some d => eqStr d my | none => false) := by
  cases hl : jlookup fs "domain" <;> simp [itemDomain, hl, eqStr]

/-- Membership after a set insertion. -/
theorem insertSet_mem (a : List JVal) (d v : JVal) :
    v ∈ insertSet a d ↔ v ∈ a ∨ v = d := by
  unfold insertSet
  split
  · rename_i hc
    have hd : d ∈ a := by simpa using hc
    constructor
    · exact Or.inl
    · rintro (h | rfl)
      · exact h
      · exact hd
  · simp [List.mem_append]

/-- Set insertion preserves freedom from duplicates. -/
theorem insertSet_nodup (a : List JVal) (d : JVal) (h : a.Nodup) :
    (insertSet a d).Nodup := by
  unfold insertSet
  split
  · exact h
  · rename_i hc
    have hd : d ∉ a := by simpa using hc
    simp [List.nodup_append, h, hd]

/-- When the first extraction loop completes, it computes the spec-side
advertiser rank. -/
theorem findMyDomainRank_ok : ∀ (xs : List JVal) (my : String) (r : PyRankV),
    findMyDomainRank xs my = .ok r → r = specMyRank xs my
  | [], my, r, h => by
      simp [findMyDomainRank] at h
      simp [specMyRank, ← h]
  | item :: rest, my, r, h => by
      cases item with
      | null => simp [findMyDomainRank, pyGetD, pyGet] at h
      | jbool x => simp [findMyDomainRank, pyGetD, pyGet] at h
      | jnum x => simp [findMyDomainRank, pyGetD, pyGet] at h
      | jstr s => simp [findMyDomainRank, pyGetD, pyGet] at h
      | jarr ys => simp [findMyDomainRank, pyGetD, pyGet] at h
      | jobj fs =>
          cases hty : itemType (.jobj fs) "organic" with
          | false =>
              simp only [findMyDomainRank, pyGetD_obj, eqStr_getD_type, hty, if_false] at h
              have := findMyDomainRank_ok rest my r h
              simp [specMyRank, hty, this]
          | true =>
              cases hdm : (match itemDomain (JVal.jobj fs) with
                  | some d => eqStr d my | none => false) with
              | false =>
                  simp only [findMyDomainRank, pyGetD_obj, eqStr_getD_type, hty, if_true,
                    eqStr_getD_domain, hdm, if_false] at h
                  have := findMyDomainRank_ok rest my r h
                  simp [specMyRank, hty, hdm, this]
              | true =>
                  simp only [findMyDomainRank, pyGetD_obj, eqStr_getD_type, hty, if_true,
                    eqStr_getD_domain, hdm, if_true, pyGetRank_obj] at h
                  have hr := Except.ok.inj h
                  simp [specMyRank, hty, hdm, ← hr]

/-- When the collection loop completes, the accumulated set is
duplicate-free and holds exactly the prior elements plus the values some
visited item qualifies (`collectMember`). -/
theorem collect_ok : ∀ (xs : List JVal) (my : String) (rk : PyRankV) (acc l : List JVal),
    collectCompetitors xs my rk acc = .ok l →
    (acc.Nodup → l.Nodup) ∧
    (∀ v, v ∈ l ↔ v ∈ acc ∨ xs.any (collectMember my rk v) = true)
  | [], my, rk, acc, l, h => by
      simp [collectCompetitors] at h
      subst h
      exact ⟨id, by simp⟩
  | item :: rest, my, rk, acc, l, h => by
      cases item with
      | null => simp [collectCompetitors, pyGetD, pyGet] at h
      | jbool x => simp [collectCompetitors, pyGetD, pyGet] at h
      | jnum x => simp [collectCompetitors, pyGetD, pyGet] at h
      | jstr s => simp [collectCompetitors, pyGetD, pyGet] at h
      | jarr ys => simp [collectCompetitors, pyGetD, pyGet] at h
      | jobj fs =>
          simp only [collectCompetitors, pyGetD_obj, eqStr_getD_type] at h
          cases hl : jlookup fs "domain" with
          | none =>
              simp only [hl, Option.getD_none, truthy, Bool.not_false, Bool.true_or,
                if_true] at h
              have ih := collect_ok rest my rk acc l h
              refine ⟨ih.1, fun v => ?_⟩
              rw [ih.2 v]
              have hcm : collectMember my rk v (.jobj fs) = false := by
                simp [collectMember, itemDomain, hl]
              simp [hcm]
          | some d =>
              simp only [hl, Option.getD_some] at h
              cases hguard : (!truthy d || eqStr d my) with
              | true =>
                  simp only [hguard, if_true] at h
                  have ih := collect_ok rest my rk acc l h
                  refine ⟨ih.1, fun v => ?_⟩
                  rw [ih.2 v]
                  have hcm : collectMember my rk v (.jobj fs) = false := by
                    unfold collectMember
                    simp only [itemDomain, hl]
                    cases hdv : d == v with
                    | false => simp
                    | true =>
                        have hvd : d = v := eq_of_beq hdv
                        subst hvd
                        rw [Bool.or_eq_true] at hguard
                        rcases hguard with hg | hg
                        · simp only [Bool.not_eq_true'] at hg
                          simp [hg]
                        · simp [hg]
                  simp [hcm]
              | false =>
                  rw [Bool.or_eq_false_iff] at hguard
                  obtain ⟨hg1, hg2⟩ := hguard
                  simp only [Bool.not_eq_false'] at hg1
                  rw [if_neg (by simp [hg1, hg2])] at h
                  cases horg : itemType (.jobj fs) "organic" with
                  | false =>
                      simp only [horg, if_false] at h
                      cases hpaid : itemType (.jobj fs) "paid" with
                      | false =>
                          simp only [hpaid, if_false] at h
                          have ih := collect_ok rest my rk acc l h
                          refine ⟨ih.1, fun v => ?_⟩
                          rw [ih.2 v]
                          have hcm : collectMember my rk v (.jobj fs) = false := by
                            simp [collectMember, hpaid, horg]
                          simp [hcm]
                      | true =>
                          simp only [hpaid, if_true] at h
                          have ih := collect_ok rest my rk (insertSet acc d) l h
                          refine ⟨fun hn => ih.1 (insertSet_nodup _ _ hn), fun v => ?_⟩
                          rw [ih.2 v, insertSet_mem]
                          simp only [List.any_cons]
                          cases hdv : d == v with
                          | true =>
                              have hvd : d = v := eq_of_beq hdv
                              subst hvd
                              have hcm : collectMember my rk d (.jobj fs) = true := by
                                simp [collectMember, itemDomain, hl, hg1, hg2, hpaid]
                              simp [hcm]
                          | false =>
                              have hne : ¬ v = d := by
                                intro he
                                rw [he] at hdv
                                simp at hdv
                              have hcm : collectMember my rk v (.jobj fs) = false := by
                                simp [collectMember, itemDomain, hl, hdv]
                              simp [hcm, hne]
                  | true =>
                      simp only [horg, if_true, pyGetRank_obj] at h
                      cases hlt : pyLtRank (itemRank (.jobj fs)) rk with
                      | error e => simp [hlt] at h
                      | ok bl =>
                          simp only [hlt] at h
                          have hsp : specLtB (itemRank (.jobj fs)) rk = bl := by
                            simp [specLtB, hlt]
                          cases hpaid : itemType (.jobj fs) "paid" with
                          | false =>
                              simp only [hpaid, if_false] at h
                              cases bl with
                              | false =>
                                  simp only [Bool.false_eq_true, if_false] at h
                                  have ih := collect_ok rest my rk acc l h
                                  refine ⟨ih.1, fun v => ?_⟩
                                  rw [ih.2 v]
                                  have hcm : collectMember my rk v (.jobj fs) = false := by
                                    simp [collectMember, hpaid, horg, hsp]
                                  simp [hcm]
                              | true =>
                                  simp only [if_true] at h
                                  have ih := collect_ok rest my rk (insertSet acc d) l h
                                  refine ⟨fun hn => ih.1 (insertSet_nodup _ _ hn), fun v => ?_⟩
                                  rw [ih.2 v, insertSet_mem]
                                  simp only [List.any_cons]
                                  cases hdv : d == v with
                                  | true =>
                                      have hvd : d = v := eq_of_beq hdv
                                      subst hvd
                                      have hcm : collectMember my rk d (.jobj fs) = true := by
                                        simp [collectMember, itemDomain, hl, hg1, hg2, horg, hsp]
                                      simp [hcm]
                                  | false =>
                                      have hne : ¬ v = d := by
                                        intro he
                                        rw [he] at hdv
                                        simp at hdv
                                      have hcm : collectMember my rk v (.jobj fs) = false := by
                                        simp [collectMember, itemDomain, hl, hdv]
                                      simp [hcm, hne]
                          | true =>
                              simp only [hpaid, if_true] at h
                              cases bl with
                              | false =>
                                  simp only [Bool.false_eq_true, if_false] at h
                                  have ih := collect_ok rest my rk (insertSet acc d) l h
                                  refine ⟨fun hn => ih.1 (insertSet_nodup _ _ hn), fun v => ?_⟩
                                  rw [ih.2 v, insertSet_mem]
                                  simp only [List.any_cons]
                                  cases hdv : d == v with
                                  | true =>
                                      have hvd : d = v := eq_of_beq hdv
                                      subst hvd
                                      have hcm : collectMember my rk d (.jobj fs) = true := by
                                        simp [collectMember, itemDomain, hl, hg1, hg2, hpaid]
                                      simp [hcm]
                                  | false =>
                                      have hne : ¬ v = d := by
                                        intro he
                                        rw [he] at hdv
                                        simp at hdv
                                      have hcm : collectMember my rk v (.jobj fs) = false := by
                                        simp [collectMember, itemDomain, hl, hdv]
                                      simp [hcm, hne]
                              | true =>
                                  simp only [if_true] at h
                                  have ih := collect_ok rest my rk
                                    (insertSet (insertSet acc d) d) l h
                                  refine ⟨fun hn =>
                                    ih.1 (insertSet_nodup _ _ (insertSet_nodup _ _ hn)),
                                    fun v => ?_⟩
                                  rw [ih.2 v, insertSet_mem, insertSet_mem]
                                  simp only [List.any_cons]
                                  cases hdv : d == v with
                                  | true =>
                                      have hvd : d = v := eq_of_beq hdv
                                      subst hvd
                                      have hcm : collectMember my rk d (.jobj fs) = true := by
                                        simp [collectMember, itemDomain, hl, hg1, hg2, hpaid]
                                      simp [hcm]
                                  | false =>
                                      have hne : ¬ v = d := by
                                        intro he
                                        rw [he] at hdv
                                        simp at hdv
                                      have hcm : collectMember my rk v (.jobj fs) = false := by
                                        simp [collectMember, itemDomain, hl, hdv]
                                      simp [hcm, hne]

/-- A spec-shaped payload drives `extract_competitor_domains` straight
to its two loops over the item list. -/
theorem extract_eq_of_spec : ∀ (serp : JVal) (xs : List JVal) (my : String),
    specSerpItems serp = some xs →
    extract_competitor_domains serp my =
      (match findMyDomainRank xs my with
       | .error e => .error e
       | .ok r => collectCompetitors xs my r []) := by
  intro serp xs my h
  cases serp
  case jobj fs =>
    cases hT : jlookup fs "tasks"
    case some tv =>
      cases tv
      case jarr tlist =>
        cases tlist
        case cons t0 ts =>
          cases t0
          case jobj tfs =>
            cases hR : jlookup tfs "result"
            case some rv =>
              cases rv
              case jarr rlist =>
                cases rlist
                case cons r0 rs =>
                  cases r0
                  case jobj rfs =>
                    cases hI : jlookup rfs "items"
                    case some iv =>
                      cases iv
                      case jarr xs0 =>
                        simp only [specSerpItems, hT, hR, hI, Option.some.injEq] at h
                        subst h
                        have hfsE : fs.isEmpty = false := by
                          cases fs
                          · simp [jlookup] at hT
                          · rfl
                        simp [extract_competitor_domains, truthy, hfsE, pyContains,
                          jlookup_any _ _ _ hT, pySubscr, hT, pyIndex,
                          jlookup_any _ _ _ hR, hR, jlookup_any _ _ _ hI, hI, pyIter]
                      all_goals simp [specSerpItems, hT, hR, hI] at h
                    all_goals simp [specSerpItems, hT, hR, hI] at h
                  all_goals simp [specSerpItems, hT, hR] at h
                all_goals simp [specSerpItems, hT, hR] at h
              all_goals simp [specSerpItems, hT, hR] at h
            all_goals simp [specSerpItems, hT, hR] at h
          all_goals simp [specSerpItems, hT] at h
        all_goals simp [specSerpItems, hT] at h
      all_goals simp [specSerpItems, hT] at h
    all_goals simp [specSerpItems, hT] at h
  all_goals simp [specSerpItems] at h

/-- A successful extraction either happened on a guard-tripped or
degenerate payload (empty result) or went through both loops over the
spec-shaped item list. -/
theorem extract_ok_inv {serp : JVal} {my : String} {l : List JVal}
    (h : extract_competitor_domains serp my = .ok l) :
    l = [] ∨ ∃ xs r, specSerpItems serp = some xs ∧ findMyDomainRank xs my = .ok r ∧
      collectCompetitors xs my r [] = .ok l := by
  unfold extract_competitor_domains at h
  repeat' split at h
  all_goals first
    | exact Except.noConfusion h
    | exact Or.inl (Except.ok.inj h).symm
    | skip
  rename_i hTr x1 hc1 x2 tasks hs1 hTr2 x3 t0 hi1 x4 hc2 x5 result hs2 hTr3
    x6 r0 hi2 x7 hc3 x8 itemsv hs3 x9 items hit x10 rk hf
  obtain ⟨fs, rfl, hT⟩ := pySubscr_ok_obj hs1
  obtain ⟨tfs, ht0, hR⟩ := pySubscr_ok_obj hs2
  subst ht0
  obtain ⟨rfs, hr0, hI⟩ := pySubscr_ok_obj hs3
  subst hr0
  rcases pyIndex_zero_ok hi1 with ⟨ts, htasks⟩ | ⟨s, hsx, t, htx⟩
  · subst htasks
    rcases pyIndex_zero_ok hi2 with ⟨rs, hres⟩ | ⟨s2, hsx2, t2, htx2⟩
    · subst hres
      cases itemsv with
      | jarr xs0 =>
          have hx : items = xs0 := (Except.ok.inj hit).symm
          subst hx
          refine Or.inr ⟨items, rk, ?_, hf, h⟩
          simp [specSerpItems, hT, hR, hI]
      | jstr s3 =>
          have hx := Except.ok.inj hit
          cases hsl : s3.toList with
          | nil =>
              rw [hsl] at hx
              simp at hx
              subst hx
              simp [findMyDomainRank] at hf
              subst hf
              simp [collectCompetitors] at h
              exact Or.inl h
          | cons c cs =>
              rw [hsl] at hx
              simp at hx
              rw [← hx] at hf
              simp [findMyDomainRank, pyGetD, pyGet] at hf
      | jobj gs =>
          have hx := Except.ok.inj hit
          cases gs with
          | nil =>
              simp at hx
              subst hx
              simp [findMyDomainRank] at hf
              subst hf
              simp [collectCompetitors] at h
              exact Or.inl h
          | cons p ps =>
              simp at hx
              rw [← hx] at hf
              simp [findMyDomainRank, pyGetD, pyGet] at hf
      | null => exact Except.noConfusion hit
      | jbool x => exact Except.noConfusion hit
      | jnum x => exact Except.noConfusion hit
    · exact JVal.noConfusion htx2
  · exact JVal.noConfusion htx

/-- The item-independent membership conditions (truthiness, difference
from the advertiser's domain) factor out of the per-item scan. -/
theorem any_collectMember (xs : List JVal) (my : String) (rk : PyRankV) (v : JVal) :
    xs.any (collectMember my rk v) =
    (truthy v && !eqStr v my &&
     xs.any (fun item =>
       (match itemDomain item with | some d => d == v | none => false) &&
       (itemType item "paid" || (itemType item "organic" && specLtB (itemRank item) rk)))) := by
  induction xs with
  | nil => simp
  | cons item rest ih =>
      simp only [List.any_cons, ih, collectMember]
      cases truthy v <;> cases eqStr v my <;>
        cases hdm : (match itemDomain item with | some d => d == v | none => false) <;>
        simp [hdm]

/-- Claim C8 as amended: whenever `extract_competitor_domains` returns a
list, that list is duplicate-free and holds exactly the truthy
(non-empty) domain values different from the advertiser's domain that
belong to a paid item or to an organic item ranked strictly better than
the advertiser's own organic rank (defaulting to infinity when the
advertiser is absent from the organic results). -/
theorem c8_amended_membership (serp : JVal) (my : String) (l : List JVal)
    (h : extract_competitor_domains serp my = .ok l) :
    l.Nodup ∧ ∀ v, v ∈ l ↔ amendedCompetitorMember serp my v = true := by
  cases hspec : specSerpItems serp with
  | none =>
      rcases extract_ok_inv h with rfl | ⟨xs, r, hsx, _, _⟩
      · exact ⟨List.nodup_nil, fun v => by simp [amendedCompetitorMember, hspec]⟩
      · rw [hspec] at hsx; exact Option.noConfusion hsx
  | some xs =>
      rw [extract_eq_of_spec serp xs my hspec] at h
      cases hf : findMyDomainRank xs my with
      | error e => rw [hf] at h; exact Except.noConfusion h
      | ok r =>
          rw [hf] at h
          simp only [] at h
          have hco := collect_ok xs my r [] l h
          refine ⟨hco.1 List.nodup_nil, fun v => ?_⟩
          rw [hco.2 v]
          have hr := findMyDomainRank_ok xs my r hf
          simp [any_collectMember, amendedCompetitorMember, hspec, hr]

/-- Witness for the amended C8: the organic-mix payload yields exactly
the better-ranked competitor. -/
theorem c8_amended_membership_witness :
    extract_competitor_domains organicMixSerp "example.com" = .ok [JVal.jstr "better.com"] ∧
    ([JVal.jstr "better.com"] : List JVal).Nodup ∧
    ∀ v, v ∈ [JVal.jstr "better.com"] ↔
      amendedCompetitorMember organicMixSerp "example.com" v = true :=
  ⟨by decide,
   c8_amended_membership organicMixSerp "example.com" [JVal.jstr "better.com"] (by decide)⟩

/-- Claim C9 (confirmed): whenever `extract_competitor_domains` returns
a list, the advertiser's own domain is not in it. -/
theorem c9_own_domain_never_output (serp : JVal) (my : String) (l : List JVal)
    (h : extract_competitor_domains serp my = .ok l) : JVal.jstr my ∉ l := by
  rcases extract_ok_inv h with rfl | ⟨xs, r, _, _, hc⟩
  · simp
  · have hm := (collect_ok xs my r [] l hc).2 (JVal.jstr my)
    rw [hm]
    simp [List.any_eq_true, collectMember, eqStr]

/-- Witness for C9: the advertiser's domain is absent from the concrete
output of the organic-mix payload. -/
theorem c9_own_domain_never_output_witness :
    JVal.jstr "example.com" ∉ [JVal.jstr "better.com"] :=
  c9_own_domain_never_output organicMixSerp "example.com" [JVal.jstr "better.com"] (by decide)

/-! ### Claim C10 -/

/-- Over object items none of which is a rank-1 organic result, the
scan-all rank loop returns `False`. -/
theorem rankedLoopLogic_no_rank1 (xs : List JVal) (dom : String)
    (hobj : ∀ it ∈ xs, isObj it = true) (hno : ∀ it ∈ xs, isRankOneOrganic it = false) :
    rankedItemsLoopLogic xs dom = .ok false := by
  induction xs with
  | nil => rfl
  | cons item rest ih =>
      have hitem := hobj item (by simp)
      have hnoh := hno item (by simp)
      have ih2 := ih (fun it h => hobj it (by simp [h])) (fun it h => hno it (by simp [h]))
      cases item with
      | jobj fs =>
          simp only [rankedItemsLoopLogic, pyGetD_obj, eqStr_getD_type, eqNum_getD_rank]
          by_cases ht : itemType (.jobj fs) "organic"
          · have hr : (match jlookup fs "rank_absolute" with
                | some r => eqNum r 1 | none => false) = false := by
              simpa [isRankOneOrganic, ht] using hnoh
            simp [ht, hr, ih2]
          · simp [ht, ih2]
      | null => simp [isObj] at hitem
      | jbool b => simp [isObj] at hitem
      | jnum n => simp [isObj] at hitem
      | jstr s => simp [isObj] at hitem
      | jarr ys => simp [isObj] at hitem

/-- Over object items at most one of which is a rank-1 organic result,
the two rank-loop variants agree. -/
theorem rankedLoops_eq (xs : List JVal) (dom : String)
    (hobj : ∀ it ∈ xs, isObj it = true)
    (hcount : xs.countP isRankOneOrganic ≤ 1) :
    rankedItemsLoopLogic xs dom = rankedItemsLoopScript xs dom := by
  induction xs with
  | nil => rfl
  | cons item rest ih =>
      have hitem := hobj item (by simp)
      have hobjr : ∀ it ∈ rest, isObj it = true := fun it h => hobj it (by simp [h])
      have hcr : rest.countP isRankOneOrganic ≤ 1 := by
        have hc := List.countP_cons isRankOneOrganic item rest
        rw [hc] at hcount
        have hle : rest.countP isRankOneOrganic ≤
            rest.countP isRankOneOrganic + (if isRankOneOrganic item = true then 1 else 0) :=
          Nat.le_add_right _ _
        omega
      cases item with
      | jobj fs =>
          simp only [rankedItemsLoopLogic, rankedItemsLoopScript, pyGetD_obj,
            eqStr_getD_type, eqNum_getD_rank]
          by_cases ht : itemType (.jobj fs) "organic"
          · by_cases hr : (match jlookup fs "rank_absolute" with
                | some r => eqNum r 1 | none => false) = true
            · by_cases hd : eqStr ((jlookup fs "domain").getD .null) dom = true
              · simp [ht, hr, hd]
              · have hhead : isRankOneOrganic (.jobj fs) = true := by
                  simp [isRankOneOrganic, ht, hr]
                have hzero : rest.countP isRankOneOrganic = 0 := by
                  have hc2 := List.countP_cons isRankOneOrganic (JVal.jobj fs) rest
                  rw [hc2, hhead, if_pos rfl] at hcount
                  omega
                have hrest : ∀ it ∈ rest, isRankOneOrganic it = false := by
                  intro it hit
                  have := List.countP_eq_zero.mp hzero it hit
                  simpa using this
                simp [ht, hr, hd]
                exact rankedLoopLogic_no_rank1 rest dom hobjr hrest
            · simp [ht, hr, ih hobjr hcr]
          · simp [ht, ih hobjr hcr]
      | null => simp [isObj] at hitem
      | jbool b => simp [isObj] at hitem
      | jnum n => simp [isObj] at hitem
      | jstr s => simp [isObj] at hitem
      | jarr ys => simp [isObj] at hitem

/-! ### Claim C10 counterexample -/

/-- Counterexample for C10: on a payload where two organic items both
claim rank 1, the `logic.py` variant finds the advertiser at the second
rank-1 item and answers `True`, while the `serp_analysis.py` variant
stops at the first rank-1 item and answers `False`. -/
theorem c10_cex_duplicate_rank_one :
    is_domain_ranked_number_one twoRankOneSerp "mine.com" = .ok true ∧
    is_domain_ranked_number_one_script twoRankOneSerp "mine.com" = .ok false := by decide

/-- Claim C10 as amended: the two `is_domain_ranked_number_one` variants
return the same result on every payload whose iterated item list holds
only JSON objects, at most one of which is a rank-1 organic result; they
can disagree only when several organic items claim rank 1 (or when the
scan past the first rank-1 item hits a malformed item). -/
theorem c10_amended_equivalence (serp : JVal) (dom : String)
    (hgood : ∀ xs, serpItemsIter serp = .ok (some xs) →
        (∀ it ∈ xs, isObj it = true) ∧ xs.countP isRankOneOrganic ≤ 1) :
    is_domain_ranked_number_one serp dom = is_domain_ranked_number_one_script serp dom := by
  unfold is_domain_ranked_number_one is_domain_ranked_number_one_script
  cases h : serpItemsIter serp with
  | error e => rfl
  | ok o =>
      cases o with
      | none => rfl
      | some xs =>
          rcases hgood xs h with ⟨h1, h2⟩
          exact rankedLoops_eq xs dom h1 h2

/-- Witness for the amended C10: on the single-rank-1 payload both
variants coincide. -/
theorem c10_amended_equivalence_witness :
    is_domain_ranked_number_one rankOneSerp "example.com" =
      is_domain_ranked_number_one_script rankOneSerp "example.com" :=
  c10_amended_equivalence rankOneSerp "example.com" (fun xs h => by
    have h2 : serpItemsIter rankOneSerp =
        .ok (some [JVal.jobj [("type", .jstr "organic"), ("rank_absolute", .jnum 1),
                             ("domain", .jstr "example.com")]]) := by decide
    rw [h2] at h
    have hx := (Option.some.inj (Except.ok.inj h)).symm
    subst hx
    exact ⟨by decide, by decide⟩)

end BADupe
